import Mathlib

/-!
Verification development for the GoxLang compiler and stack-machine VM.

This file gives a shallow embedding, in Lean 4, of the pipeline implemented in
`glexer.py` (lexer), `gparser.py` (parser), `checkNew.py` (semantic checker,
with the symbol table modelled from the specification because `symtab.py` is
not part of the sources), `typesys.py` (type tables), `ircode.py` (IR
lowering) and `stack_machine.py` (the virtual machine), and proves or refutes
a fixed list of behavioural claims about them.

Conventions used throughout:
  - Python `int` is `Int`, Python `float` is modelled as `Rat` (the claims
    under study never depend on binary floating-point rounding),
    Python strings are `String`.
  - Python lists used as stacks are Lean lists with the top at the head
    (Python's `list.append`/`list.pop` work at the end of the list; we mirror
    them with cons / head so that `pop` is `head`).
  - Python exceptions are modelled with `Except`: a raised exception is an
    `Except.error` carrying a constructor that names the `raise` site.
  - Recursive traversals are written with an explicit fuel argument so that
    every definition is structurally recursive and reduces definitionally;
    fuel exhaustion is a distinguished error that never occurs in the
    concrete runs below.
  - Diagnostic message strings from the sources are represented by inductive
    constructors carrying the interpolated data (one constructor per `error`
    or `raise` call site), rather than by the literal Spanish message text.
-/

namespace Gox

/-- Decidable equality for `Except` results (used to state refutations by
`decide`). -/
instance {ε α : Type} [DecidableEq ε] [DecidableEq α] :
    DecidableEq (Except ε α) := fun x y =>
  match x, y with
  | .ok a, .ok b =>
    if h : a = b then isTrue (congrArg Except.ok h)
    else isFalse (fun hh => h (Except.ok.inj hh))
  | .error a, .error b =>
    if h : a = b then isTrue (congrArg Except.error h)
    else isFalse (fun hh => h (Except.error.inj hh))
  | .ok _, .error _ => isFalse (fun hh => Except.noConfusion hh)
  | .error _, .ok _ => isFalse (fun hh => Except.noConfusion hh)

/-! ## Lexer (glexer.py)

`Token` mirrors `glexer.Token`: a type tag, the lexeme, and the line number.
-/

structure Token where
  type : String
  value : String
  lineno : Nat
deriving DecidableEq, Repr

/-- Errors raised by `Lexer.tokenize` (both are Python `ValueError`s):
an illegal character at a line, or an unterminated block comment.
`fuel` models no source behaviour; it is never hit for fuel ≥ length+1. -/
inductive LexError where
  | illegalChar (lineno : Nat) (c : Char)
  | unterminatedComment (lineno : Nat)
  | fuel
deriving DecidableEq, Repr

/-- `Lexer.KEYWORDS` from glexer.py. -/
def KEYWORDS : List String :=
  ["const", "var", "print", "return", "break", "continue", "if", "else",
   "while", "func", "import", "true", "false", "int", "float", "char", "bool"]

/-- `Lexer.TWO_CHAR`: two-character operator table, keyed on the next two
characters of the input. -/
def twoCharLookup (a b : Char) : Option String :=
  match a with
  | '<' => if b = '=' then some "LE" else none
  | '>' => if b = '=' then some "GE" else none
  | '=' => if b = '=' then some "EQ" else none
  | '!' => if b = '=' then some "NE" else none
  | '&' => if b = '&' then some "LAND" else none
  | '|' => if b = '|' then some "LOR" else none
  | _ => none

/-- `Lexer.ONE_CHAR`: single-character operator/punctuation table.
(The backtick and apostrophe characters are written via `Char.ofNat`:
96 is the backtick, mapped to token type BACKTICK.) -/
def oneCharLookup (c : Char) : Option String :=
  if c = '+' then some "PLUS"
  else if c = '-' then some "MINUS"
  else if c = '*' then some "TIMES"
  else if c = '/' then some "DIVIDE"
  else if c = '<' then some "LT"
  else if c = '>' then some "GT"
  else if c = '=' then some "ASSIGN"
  else if c = ';' then some "SEMI"
  else if c = '(' then some "LPAREN"
  else if c = ')' then some "RPAREN"
  else if c = '{' then some "LBRACE"
  else if c = '}' then some "RBRACE"
  else if c = ',' then some "COMMA"
  else if c = Char.ofNat 96 then some "BACKTICK"
  else if c = '^' then some "HAT"
  else if c = '!' then some "NOT"
  else none

/-- The apostrophe / single-quote character used by `CHAR_PAT`. -/
def quoteChar : Char := Char.ofNat 39

/-- First character of `NAME_PAT` = `[a-zA-Z_]`. -/
def nameStart (c : Char) : Bool := c.isAlpha || c = '_'

/-- Continuation characters of `NAME_PAT` = `[a-zA-Z_0-9]`. -/
def nameCont (c : Char) : Bool := c.isAlpha || c = '_' || c.isDigit

/-- Characters allowed after a backslash in `CHAR_PAT`:
`\\[nrt0'\"\\]`. -/
def charEscape (c : Char) : Bool :=
  c = 'n' || c = 'r' || c = 't' || c = '0' || c = quoteChar || c = '"' || c = '\\'

/-- `CHAR_PAT.match` at the current position: a quoted escape sequence or a
quoted single character other than backslash and quote. Returns the matched
lexeme (quotes included, as Python's `m.group(0)`) and the rest. -/
def matchCharLit (cs : List Char) : Option (String × List Char) :=
  match cs with
  | c0 :: c1 :: rest =>
    if c0 = quoteChar then
      if c1 = '\\' then
        match rest with
        | c2 :: c3 :: rest' =>
          if charEscape c2 && c3 = quoteChar then
            some (String.mk [c0, c1, c2, c3], rest')
          else none
        | _ => none
      else if c1 = quoteChar then none
      else
        match rest with
        | c2 :: rest' =>
          if c2 = quoteChar then some (String.mk [c0, c1, c2], rest') else none
        | _ => none
    else none
  | _ => none

/-- `NAME_PAT.match` at the current position. -/
def matchName (cs : List Char) : Option (String × List Char) :=
  match cs with
  | c :: rest =>
    if nameStart c then
      some (String.mk (c :: rest.takeWhile nameCont), rest.dropWhile nameCont)
    else none
  | [] => none

/-- `BOOL_PAT.match` at the current position (`\b(true|false)\b`): a
`true`/`false` prefix followed by a non-word character or the end. In
`tokenize` this check is dead code - `NAME_PAT` is tried first and already
matches any input starting with a letter - but it is embedded faithfully. -/
def matchBool (cs : List Char) : Option (String × List Char) :=
  if cs.take 4 = ['t', 'r', 'u', 'e'] then
    match cs.drop 4 with
    | [] => some ("true", [])
    | c :: rest => if nameCont c then none else some ("true", c :: rest)
  else if cs.take 5 = ['f', 'a', 'l', 's', 'e'] then
    match cs.drop 5 with
    | [] => some ("false", [])
    | c :: rest => if nameCont c then none else some ("false", c :: rest)
  else none

/-- `FLOAT_PAT.match` at the current position: `\d+\.\d*|\.\d+`, trying the
left alternative first as Python's regex engine does. -/
def matchFloat (cs : List Char) : Option (String × List Char) :=
  match cs with
  | c :: _ =>
    if c.isDigit then
      let ds := cs.takeWhile Char.isDigit
      match cs.dropWhile Char.isDigit with
      | '.' :: rest =>
        some (String.mk (ds ++ '.' :: rest.takeWhile Char.isDigit),
              rest.dropWhile Char.isDigit)
      | _ => none
    else if c = '.' then
      match cs with
      | _ :: rest =>
        match rest with
        | d :: _ =>
          if d.isDigit then
            some (String.mk ('.' :: rest.takeWhile Char.isDigit),
                  rest.dropWhile Char.isDigit)
          else none
        | [] => none
      | [] => none
    else none
  | [] => none

/-- `INTEGER_PAT.match` at the current position: `\d+`. -/
def matchInteger (cs : List Char) : Option (String × List Char) :=
  match cs with
  | c :: _ =>
    if c.isDigit then
      some (String.mk (cs.takeWhile Char.isDigit), cs.dropWhile Char.isDigit)
    else none
  | [] => none

/-- Skip to the next newline, mirroring `self.index = self.text.find("\n",
self.index)` for a `//` comment: the newline itself is left in the input
(the main loop consumes it and bumps the line counter). -/
def skipLineComment (cs : List Char) : List Char := cs.dropWhile (· ≠ '\n')

/-- Split at the first occurrence of the two-character closer `*/`, mirroring
`text.find("*/", ...)`. Returns the characters before the closer and the
characters after it, or `none` when the comment is unterminated. -/
def splitBlockClose : List Char → Option (List Char × List Char)
  | [] => none
  | c :: rest =>
    match rest with
    | [] => none
    | c' :: rest' =>
      if c = '*' && c' = '/' then some ([], rest')
      else
        match splitBlockClose (c' :: rest') with
        | some (pre, post) => some (c :: pre, post)
        | none => none

/-- Count the newline characters in a list (for block-comment line
accounting). -/
def countNewlines (cs : List Char) : Nat := (cs.filter (· = '\n')).length

/-- Two-character operator lookup at the head of the input (Python's
`text[index:index+2] in TWO_CHAR`; a one-character slice never matches). -/
def twoCharAt (c : Char) (rest : List Char) : Option String :=
  match rest with
  | c2 :: _ => twoCharLookup c c2
  | [] => none

/-- One pass of `Lexer.tokenize`, with explicit fuel. The branch order is
exactly that of the source: whitespace, newline, `//` comment, `/* */`
comment, two-character operators, one-character operators, `CHAR_PAT`,
`NAME_PAT` (keywords reclassified), `BOOL_PAT`, `FLOAT_PAT`, `INTEGER_PAT`,
and otherwise a `ValueError` naming the current line and character. -/
def lexGo : Nat → List Char → Nat → List Token → Except LexError (List Token)
  | 0, _, _, _ => .error .fuel
  | _ + 1, [], _, acc => .ok acc.reverse
  | fuel + 1, c :: rest, lineno, acc =>
    if c = ' ' || c = '\t' then
      lexGo fuel rest lineno acc
    else if c = '\n' then
      lexGo fuel rest (lineno + 1) acc
    else if c = '/' && rest.head? = some '/' then
      lexGo fuel (skipLineComment rest) lineno acc
    else if c = '/' && rest.head? = some '*' then
      match splitBlockClose rest.tail with
      | none => .error (.unterminatedComment lineno)
      | some (inside, after) =>
        lexGo fuel after (lineno + countNewlines inside) acc
    else
      match twoCharAt c rest with
      | some t =>
        lexGo fuel rest.tail lineno
          (⟨t, String.mk (c :: rest.take 1), lineno⟩ :: acc)
      | none =>
        match oneCharLookup c with
        | some t => lexGo fuel rest lineno (⟨t, String.mk [c], lineno⟩ :: acc)
        | none =>
          match matchCharLit (c :: rest) with
          | some (lexeme, rest') =>
            lexGo fuel rest' lineno (⟨"CHAR", lexeme, lineno⟩ :: acc)
          | none =>
            match matchName (c :: rest) with
            | some (lexeme, rest') =>
              lexGo fuel rest' lineno
                (⟨if lexeme ∈ KEYWORDS then lexeme else "ID",
                  lexeme, lineno⟩ :: acc)
            | none =>
              match matchBool (c :: rest) with
              | some (lexeme, rest') =>
                lexGo fuel rest' lineno (⟨"BOOL", lexeme, lineno⟩ :: acc)
              | none =>
                match matchFloat (c :: rest) with
                | some (lexeme, rest') =>
                  lexGo fuel rest' lineno (⟨"FLOAT", lexeme, lineno⟩ :: acc)
                | none =>
                  match matchInteger (c :: rest) with
                  | some (lexeme, rest') =>
                    lexGo fuel rest' lineno
                      (⟨"INTEGER", lexeme, lineno⟩ :: acc)
                  | none => .error (.illegalChar lineno c)

/-- `Lexer(text).tokenize()`. Each loop iteration consumes at least one
character, so `length + 1` fuel always suffices. -/
def tokenize (s : String) : Except LexError (List Token) :=
  lexGo (s.data.length + 1) s.data 1 []

/-! ## AST model (gmodel.py)

`GNode` is a tagged union of the node classes of gmodel.py that the parser
constructs. Literal values (`Literal.value`) hold a Python `int`, `float` or
`str`, captured by `PyVal`. Source-line bookkeeping (`lineno`) is not
modelled: no claim under study depends on line numbers past the lexer.
The mutable `type` annotation written by the checker and the lowerer is an
`Option String` field; a missing Python attribute and an attribute equal to
`None` are conflated as `none` (no claim distinguishes the two, both are
only ever reached on paths that crash).

`Parameter` nodes are the `Param` structure. -/

structure Param where
  name : String
  type : String
deriving DecidableEq, Repr

/-- A Python value stored in a `Literal` node: the parser stores `int`s for
integer literals, `float`s for float literals, and strings for char and bool
literals. -/
inductive PyVal where
  | pint (n : Int)
  | pfloat (q : Rat)
  | pstr (s : String)
deriving DecidableEq, Repr

inductive GNode where
  | Program (stmts : List GNode)
  | Print (expression : GNode)
  | Conditional (condition : GNode) (true_branch : List GNode)
      (false_branch : Option (List GNode))
  | WhileLoop (condition : GNode) (body : List GNode)
  | Break
  | Continue
  | Return (expression : Option GNode)
  | VariableDeclaration (name : String) (var_type : String)
      (value : Option GNode) (is_constant : Bool)
  | FunctionDefinition (name : String) (parameters : List Param)
      (return_type : String) (body : List GNode)
  | FunctionImport (name : String) (parameters : List Param)
      (return_type : String)
  | Literal (type : String) (value : PyVal)
  | BinaryOperation (left : GNode) (operator : String) (right : GNode)
      (type : Option String)
  | UnaryOperation (operator : String) (operand : GNode) (type : Option String)
  | TypeConversion (target_type : String) (expression : GNode)
      (type : Option String)
  | FunctionCall (name : String) (arguments : List GNode) (type : Option String)
  | PrimitiveAssignmentLocation (name : String) (expression : GNode)
  | PrimitiveReadLocation (name : String) (type : Option String)
  | MemoryReadLocation (address : GNode) (type : Option String)
  | MemoryAssignmentLocation (address : GNode) (value : GNode)
      (type : Option String)

/-- `BinaryOperation.__init__`: the constructor pre-sets `self.type` only
when both children are `Literal`s (to their common type, or `None` when the
literal types differ); otherwise the attribute stays unset. -/
def mkBinaryOperation (left : GNode) (op : String) (right : GNode) : GNode :=
  match left, right with
  | .Literal t1 _, .Literal t2 _ =>
    .BinaryOperation left op right (if t1 = t2 then some t1 else none)
  | _, _ => .BinaryOperation left op right none

/-! ## Parser (gparser.py)

Recursive-descent parser over the token list. Parser position is an index
into the token list; every entry point returns the parsed node together
with the new index. Python exceptions are modelled by `PErr`:
`syntaxError` for `raise SyntaxError` (carrying the line number used in the
message), `attributeError` for attribute access on `None` (e.g.
`self.peek().type` at end of input, or the `self.old_lineno` read in the
brace-less `if` branch), and `typeErrorCrash` for the
`MemoryReadLocation(addr, lineno=...)` call in `factor`, which crashes
because `gmodel.MemoryReadLocation.__init__` accepts no `lineno` argument.
-/

inductive PErr where
  | syntaxError (lineno : Int)
  | attributeError
  | typeErrorCrash
  | fuel
deriving DecidableEq, Repr

/-- `Parser.peek`. -/
def peekT (toks : List Token) (i : Nat) : Option Token := toks.get? i

/-- `Parser.match`: consume the next token when its type matches. -/
def matchT (toks : List Token) (i : Nat) (ty : String) : Bool × Nat :=
  match peekT toks i with
  | some t => if t.type = ty then (true, i + 1) else (false, i)
  | none => (false, i)

/-- `Parser.consume`: like `matchT` but raising `SyntaxError` on mismatch
(or `AttributeError` when there is no next token, because the error message
dereferences `self.peek()`). -/
def consumeT (toks : List Token) (i : Nat) (ty : String) :
    Except PErr (Token × Nat) :=
  match peekT toks i with
  | some t =>
    if t.type = ty then .ok (t, i + 1) else .error (.syntaxError t.lineno)
  | none => .error .attributeError

/-- `Parser.get_lineno`: line of the most recently consumed token, `-1`
before the first. -/
def getLineno (toks : List Token) (i : Nat) : Int :=
  if i > 0 then ((peekT toks (i - 1)).map (Int.ofNat ·.lineno)).getD 0 else -1

/-- Digit-string to `Nat` (Python `int(...)` on a `\d+` lexeme). -/
def strToNat (s : String) : Nat :=
  s.data.foldl (fun n c => n * 10 + (c.toNat - 48)) 0

/-- Python `float(...)` on a `FLOAT_PAT` lexeme: digits, a dot, digits. -/
def strToRat (s : String) : Rat :=
  let intPart := s.data.takeWhile Char.isDigit
  let fracPart := (s.data.dropWhile Char.isDigit).drop 1
  mkRat (strToNat (String.mk intPart) * 10 ^ fracPart.length
         + strToNat (String.mk fracPart)) (10 ^ fracPart.length)

/-- `char_value[1:-1].encode().decode('unicode_escape')` on a `CHAR_PAT`
lexeme: strip the quotes and decode a single escape sequence if present. -/
def unescapeCharLexeme (s : String) : String :=
  let inner := (s.data.drop 1).dropLast
  match inner with
  | ['\\', e] =>
    if e = 'n' then String.mk [Char.ofNat 10]
    else if e = 'r' then String.mk [Char.ofNat 13]
    else if e = 't' then String.mk [Char.ofNat 9]
    else if e = '0' then String.mk [Char.ofNat 0]
    else String.mk [e]
  | other => String.mk other

/-- Python `str.lower()` (ASCII), written over the character list so that
it reduces definitionally (`String.toLower` does not). -/
def pyLower (s : String) : String := String.mk (s.data.map Char.toLower)

/-- Type-name token types accepted for parameters, variable declarations,
return types and casts. -/
def typeNameTokens : List String := ["int", "float", "bool", "char"]

/-- Requests into the recursive-descent engine: one constructor per
`Parser` method (loop helpers carry their accumulator). A single fueled
recursion is used, instead of a Lean `mutual` block, so that concrete
parses reduce definitionally; the named `Parser` methods below are thin
wrappers around it. -/
inductive PReq where
  | statement
  | arguments
  | argsLoop (acc : List GNode)
  | parameters
  | paramsLoop (acc : List Param)
  | assignment
  | vardecl
  | funcdecl
  | bodyLoop (acc : List GNode)
  | if_stmt
  | while_stmt
  | return_stmt
  | print_stmt
  | expression
  | expressionLoop (left : GNode)
  | orterm
  | ortermLoop (left : GNode)
  | andterm
  | andtermLoop (left : GNode)
  | relterm
  | reltermLoop (left : GNode)
  | addterm
  | addtermLoop (left : GNode)
  | term
  | termLoop (left : GNode)
  | factor

/-- Results of the parser engine. -/
inductive PRes where
  | node (g : GNode)
  | nodes (gs : List GNode)
  | params (ps : List Param)

/-- Project a `PRes.node` result (the other cases cannot occur for the
requests that expect a node). -/
def asNode (e : Except PErr (PRes × Nat)) : Except PErr (GNode × Nat) :=
  match e with
  | .ok (.node g, i) => .ok (g, i)
  | .ok _ => .error .fuel
  | .error err => .error err

/-- Project a `PRes.nodes` result. -/
def asNodes (e : Except PErr (PRes × Nat)) :
    Except PErr (List GNode × Nat) :=
  match e with
  | .ok (.nodes gs, i) => .ok (gs, i)
  | .ok _ => .error .fuel
  | .error err => .error err

/-- Project a `PRes.params` result. -/
def asParams (e : Except PErr (PRes × Nat)) :
    Except PErr (List Param × Nat) :=
  match e with
  | .ok (.params ps, i) => .ok (ps, i)
  | .ok _ => .error .fuel
  | .error err => .error err

/-- The recursive-descent engine for `Parser` of gparser.py, one case per
method, with the branch structure of the source. -/
def pRun : Nat → PReq → List Token → Nat → Except PErr (PRes × Nat)
  | 0, _, _, _ => .error .fuel
  | fuel + 1, req, toks, i =>
    match req with
    | .statement =>
      -- `Parser.statement`: dispatch on the first token
      (match peekT toks i with
       | none => .error .attributeError
       | some t =>
         if t.type = "BACKTICK" then pRun fuel .assignment toks i
         else if t.type = "ID" then
           -- save the position, advance, and look ahead for a call
           match peekT toks (i + 1) with
           | some t2 =>
             if t2.type = "LPAREN" then do
               let (_, i2) ← consumeT toks (i + 1) "LPAREN"
               let (args, i3) ← asNodes (pRun fuel .arguments toks i2)
               let (_, i4) ← consumeT toks i3 "RPAREN"
               let (_, i5) ← consumeT toks i4 "SEMI"
               .ok (.node (.FunctionCall t.value args none), i5)
             else pRun fuel .assignment toks i  -- backtrack
           | none => pRun fuel .assignment toks i
         else if t.type = "var" || t.type = "const" then
           pRun fuel .vardecl toks i
         else if t.type = "func" then pRun fuel .funcdecl toks i
         else if t.type = "if" then pRun fuel .if_stmt toks i
         else if t.type = "while" then pRun fuel .while_stmt toks i
         else if t.type = "break" then do
           let (_, i2) ← consumeT toks (i + 1) "SEMI"
           .ok (.node .Break, i2)
         else if t.type = "continue" then do
           let (_, i2) ← consumeT toks (i + 1) "SEMI"
           .ok (.node .Continue, i2)
         else if t.type = "return" then pRun fuel .return_stmt toks i
         else if t.type = "print" then pRun fuel .print_stmt toks i
         else .error (.syntaxError t.lineno))
    | .arguments =>
      -- `Parser.arguments`
      (match peekT toks i with
       | none => .error .attributeError
       | some t =>
         if t.type = "RPAREN" then .ok (.nodes [], i)
         else do
           let (e, i1) ← asNode (pRun fuel .expression toks i)
           pRun fuel (.argsLoop [e]) toks i1)
    | .argsLoop acc =>
      -- the `while self.match("COMMA")` loop of `Parser.arguments`
      (match matchT toks i "COMMA" with
       | (true, i1) => do
         let (e, i2) ← asNode (pRun fuel .expression toks i1)
         pRun fuel (.argsLoop (acc ++ [e])) toks i2
       | (false, _) => .ok (.nodes acc, i))
    | .parameters =>
      -- `Parser.parameters` (the second definition in the file wins)
      (match peekT toks i with
       | none => .ok (.params [], i)
       | some t =>
         if t.type = "RPAREN" then .ok (.params [], i)
         else do
           let (nameTok, i1) ← consumeT toks i "ID"
           match peekT toks i1 with
           | none => .error .attributeError
           | some pt =>
             if pt.type ∈ typeNameTokens then
               pRun fuel (.paramsLoop [⟨nameTok.value, pt.value⟩]) toks (i1 + 1)
             else .error (.syntaxError pt.lineno))
    | .paramsLoop acc =>
      -- the `while self.match('COMMA')` loop of `Parser.parameters`
      (match matchT toks i "COMMA" with
       | (true, i1) => do
         let (nameTok, i2) ← consumeT toks i1 "ID"
         match peekT toks i2 with
         | none => .error .attributeError
         | some pt =>
           if pt.type ∈ typeNameTokens then
             pRun fuel (.paramsLoop (acc ++ [⟨nameTok.value, pt.value⟩]))
               toks (i2 + 1)
           else .error (.syntaxError pt.lineno)
       | (false, _) => .ok (.params acc, i))
    | .assignment =>
      -- `Parser.assignment`
      (match matchT toks i "BACKTICK" with
       | (true, i1) => do
         let (addr, i3) ← (do
           match peekT toks i1 with
           | none => .error .attributeError
           | some t =>
             if t.type = "ID" then do
               let (tok, i2) ← consumeT toks i1 "ID"
               .ok ((GNode.PrimitiveReadLocation tok.value none), i2)
             else
               match matchT toks i1 "LPAREN" with
               | (true, i2) => do
                 let (e, i3) ← asNode (pRun fuel .expression toks i2)
                 let (_, i4) ← consumeT toks i3 "RPAREN"
                 .ok (e, i4)
               | (false, _) => .error (.syntaxError t.lineno))
         let (_, i4) ← consumeT toks i3 "ASSIGN"
         let (value, i5) ← asNode (pRun fuel .expression toks i4)
         let (_, i6) ← consumeT toks i5 "SEMI"
         .ok (.node (.MemoryAssignmentLocation addr value none), i6)
       | (false, _) =>
         match peekT toks i with
         | some t =>
           if t.type = "ID" then do
             let (nameTok, i1) ← consumeT toks i "ID"
             let (_, i2) ← consumeT toks i1 "ASSIGN"
             let (e, i3) ← asNode (pRun fuel .expression toks i2)
             let (_, i4) ← consumeT toks i3 "SEMI"
             .ok (.node (.PrimitiveAssignmentLocation nameTok.value e), i4)
           else .error (.syntaxError t.lineno)
         | none => .error .attributeError)
    | .vardecl => do
      -- `Parser.vardecl`
      let (is_constant, i1) := matchT toks i "const"
      let i2 ← if is_constant then pure i1 else do
        let (_, j) ← consumeT toks i1 "var"
        pure j
      let (nameTok, i3) ← consumeT toks i2 "ID"
      -- optional explicit type
      let (varType, i4) :=
        match peekT toks i3 with
        | some t =>
          if t.type ∈ typeNameTokens then (some t.value, i3 + 1)
          else (none, i3)
        | none => (none, i3)
      -- optional initializer; infer the type from a literal initializer
      let (value, varType2, i6) ← (do
        match matchT toks i4 "ASSIGN" with
        | (true, i5) => do
          let (e, i6) ← asNode (pRun fuel .expression toks i5)
          match varType, e with
          | none, .Literal t _ => .ok (some e, some t, i6)
          | _, _ => .ok (some e, varType, i6)
        | (false, _) => .ok ((none : Option GNode), varType, i4))
      match varType2 with
      | none => .error (.syntaxError nameTok.lineno)
      | some vt => do
        let (_, i7) ← consumeT toks i6 "SEMI"
        .ok (.node (.VariableDeclaration nameTok.value vt value is_constant),
             i7)
    | .funcdecl => do
      -- `Parser.funcdecl`
      let (_, i1) ← consumeT toks i "func"
      let (nameTok, i2) ← consumeT toks i1 "ID"
      let (_, i3) ← consumeT toks i2 "LPAREN"
      let (params, i4) ← asParams (pRun fuel .parameters toks i3)
      let (_, i5) ← consumeT toks i4 "RPAREN"
      let (returnType, i6) :=
        match peekT toks i5 with
        | some t =>
          if t.type ∈ typeNameTokens then (t.value, i5 + 1) else ("VOID", i5)
        | none => ("VOID", i5)
      let (_, i7) ← consumeT toks i6 "LBRACE"
      let (body, i8) ← asNodes (pRun fuel (.bodyLoop []) toks i7)
      .ok (.node (.FunctionDefinition nameTok.value params returnType body),
           i8)
    | .bodyLoop acc =>
      -- a `while not self.match("RBRACE")` statement-list loop
      (match matchT toks i "RBRACE" with
       | (true, i1) => .ok (.nodes acc, i1)
       | (false, _) => do
         let (s, i1) ← asNode (pRun fuel .statement toks i)
         pRun fuel (.bodyLoop (acc ++ [s])) toks i1)
    | .if_stmt => do
      -- `Parser.if_stmt`; the brace-less form parses its branches and then
      -- crashes reading the never-assigned attribute `self.old_lineno`
      let (_, i1) ← consumeT toks i "if"
      let (cond, i2) ← asNode (pRun fuel .expression toks i1)
      match matchT toks i2 "LBRACE" with
      | (false, _) => do
        match peekT toks i2 with
        | none => .error .attributeError
        | some t =>
          if t.type = "SEMI" || t.type = "NEWLINE" then
            .error (.syntaxError t.lineno)
          else do
            let (_, i3) ← asNode (pRun fuel .statement toks i2)
            let (_, _) ← (do
              match matchT toks i3 "else" with
              | (true, i4) => do
                let (s, i5) ← asNode (pRun fuel .statement toks i4)
                .ok ((some s : Option GNode), i5)
              | (false, _) => .ok ((none : Option GNode), i3))
            .error .attributeError
      | (true, i3) => do
        let (trueBranch, i4) ← asNodes (pRun fuel (.bodyLoop []) toks i3)
        match matchT toks i4 "else" with
        | (true, i5) =>
          match matchT toks i5 "LBRACE" with
          | (false, _) => do
            let (s, i6) ← asNode (pRun fuel .statement toks i5)
            .ok (.node (.Conditional cond trueBranch (some [s])), i6)
          | (true, i6) => do
            let (falseBranch, i7) ← asNodes (pRun fuel (.bodyLoop []) toks i6)
            .ok (.node (.Conditional cond trueBranch (some falseBranch)), i7)
        | (false, _) => .ok (.node (.Conditional cond trueBranch none), i4)
    | .while_stmt => do
      -- `Parser.while_stmt`
      let (_, i1) ← consumeT toks i "while"
      let (cond, i2) ← asNode (pRun fuel .expression toks i1)
      let (_, i3) ← consumeT toks i2 "LBRACE"
      let (body, i4) ← asNodes (pRun fuel (.bodyLoop []) toks i3)
      .ok (.node (.WhileLoop cond body), i4)
    | .return_stmt => do
      -- `Parser.return_stmt`
      let (_, i1) ← consumeT toks i "return"
      match matchT toks i1 "SEMI" with
      | (true, i2) => .ok (.node (.Return none), i2)
      | (false, _) => do
        let (e, i2) ← asNode (pRun fuel .expression toks i1)
        let (_, i3) ← consumeT toks i2 "SEMI"
        .ok (.node (.Return (some e)), i3)
    | .print_stmt => do
      -- `Parser.print_stmt`
      let (_, i1) ← consumeT toks i "print"
      let (e, i2) ← asNode (pRun fuel .expression toks i1)
      let (_, i3) ← consumeT toks i2 "SEMI"
      .ok (.node (.Print e), i3)
    | .expression => do
      -- `Parser.expression`: an `orterm`, then a dead loop looking for a
      -- token type `OR` that the lexer never produces
      let (left, i1) ← asNode (pRun fuel .orterm toks i)
      pRun fuel (.expressionLoop left) toks i1
    | .expressionLoop left =>
      (match peekT toks i with
       | some t =>
         if t.type = "OR" then do
           let (right, i2) ← asNode (pRun fuel .orterm toks (i + 1))
           pRun fuel (.expressionLoop (mkBinaryOperation left t.type right))
             toks i2
         else .ok (.node left, i)
       | none => .ok (.node left, i))
    | .orterm => do
      -- `Parser.orterm`
      let (left, i1) ← asNode (pRun fuel .andterm toks i)
      pRun fuel (.ortermLoop left) toks i1
    | .ortermLoop left =>
      (match matchT toks i "LOR" with
       | (true, i1) => do
         let (right, i2) ← asNode (pRun fuel .andterm toks i1)
         pRun fuel (.ortermLoop (mkBinaryOperation left "LOR" right)) toks i2
       | (false, _) => .ok (.node left, i))
    | .andterm => do
      -- `Parser.andterm`
      let (left, i1) ← asNode (pRun fuel .relterm toks i)
      pRun fuel (.andtermLoop left) toks i1
    | .andtermLoop left =>
      (match matchT toks i "LAND" with
       | (true, i1) => do
         let (right, i2) ← asNode (pRun fuel .relterm toks i1)
         pRun fuel (.andtermLoop (mkBinaryOperation left "LAND" right)) toks i2
       | (false, _) => .ok (.node left, i))
    | .relterm => do
      -- `Parser.relterm`
      let (left, i1) ← asNode (pRun fuel .addterm toks i)
      pRun fuel (.reltermLoop left) toks i1
    | .reltermLoop left =>
      (match peekT toks i with
       | some t =>
         if t.type ∈ ["LT", "GT", "LE", "GE", "EQ", "NE"] then do
           let (right, i2) ← asNode (pRun fuel .addterm toks (i + 1))
           pRun fuel (.reltermLoop (mkBinaryOperation left t.type right))
             toks i2
         else .ok (.node left, i)
       | none => .ok (.node left, i))
    | .addterm => do
      -- `Parser.addterm`
      let (left, i1) ← asNode (pRun fuel .term toks i)
      pRun fuel (.addtermLoop left) toks i1
    | .addtermLoop left =>
      (match peekT toks i with
       | some t =>
         if t.type ∈ ["PLUS", "MINUS"] then do
           let (right, i2) ← asNode (pRun fuel .term toks (i + 1))
           pRun fuel (.addtermLoop (mkBinaryOperation left t.type right))
             toks i2
         else .ok (.node left, i)
       | none => .ok (.node left, i))
    | .term => do
      -- `Parser.term`
      let (left, i1) ← asNode (pRun fuel .factor toks i)
      pRun fuel (.termLoop left) toks i1
    | .termLoop left =>
      (match peekT toks i with
       | some t =>
         if t.type ∈ ["TIMES", "DIVIDE", "MODULO", "CARET"] then do
           let (right, i2) ← asNode (pRun fuel .factor toks (i + 1))
           pRun fuel (.termLoop (mkBinaryOperation left t.type right)) toks i2
         else .ok (.node left, i)
       | none => .ok (.node left, i))
    | .factor =>
      -- `Parser.factor`
      (match matchT toks i "true" with
       | (true, i1) => .ok (.node (.Literal "bool" (.pstr "true")), i1)
       | (false, _) =>
       match matchT toks i "false" with
       | (true, i1) => .ok (.node (.Literal "bool" (.pstr "false")), i1)
       | (false, _) =>
       match matchT toks i "INTEGER" with
       | (true, i1) =>
         .ok (.node (.Literal "int"
           (.pint (strToNat ((toks.get? (i1 - 1)).map (·.value) |>.getD "")))),
           i1)
       | (false, _) =>
       match matchT toks i "FLOAT" with
       | (true, i1) =>
         .ok (.node (.Literal "float"
           (.pfloat (strToRat ((toks.get? (i1 - 1)).map (·.value) |>.getD "")))),
           i1)
       | (false, _) =>
       match matchT toks i "CHAR" with
       | (true, i1) =>
         .ok (.node (.Literal "char"
           (.pstr (unescapeCharLexeme
             ((toks.get? (i1 - 1)).map (·.value) |>.getD "")))), i1)
       | (false, _) =>
       match matchT toks i "BOOLEAN" with
       | (true, i1) =>
         .ok (.node (.Literal "bool"
           (.pstr (pyLower ((toks.get? (i1 - 1)).map (·.value) |>.getD "")))),
           i1)
       | (false, _) =>
         if ((peekT toks i).map
             (fun t => decide (t.type ∈ ["PLUS", "MINUS", "HAT", "NOT"]))).getD
             false then do
           let op := ((peekT toks i).map (·.type)).getD ""
           let (operand, i2) ← asNode (pRun fuel .factor toks (i + 1))
           .ok (.node (.UnaryOperation op operand none), i2)
         else
         match matchT toks i "LPAREN" with
         | (true, i1) => do
           let (e, i2) ← asNode (pRun fuel .expression toks i1)
           let (_, i3) ← consumeT toks i2 "RPAREN"
           .ok (.node e, i3)
         | (false, _) =>
         match matchT toks i "BACKTICK" with
         | (true, i1) => do
           let (_, _) ← (do
             match peekT toks i1 with
             | none => .error .attributeError
             | some t =>
               if t.type = "ID" then do
                 let (tok, i2) ← consumeT toks i1 "ID"
                 .ok ((GNode.PrimitiveReadLocation tok.value none), i2)
               else
                 match matchT toks i1 "LPAREN" with
                 | (true, i2) => do
                   let (e, i3) ← asNode (pRun fuel .expression toks i2)
                   let (_, i4) ← consumeT toks i3 "RPAREN"
                   .ok (e, i4)
                 | (false, _) => .error (.syntaxError t.lineno))
           -- `MemoryReadLocation(addr_expr, lineno=...)`: gmodel's
           -- constructor takes no lineno keyword: TypeError
           .error .typeErrorCrash
         | (false, _) =>
         match matchT toks i "ID" with
         | (true, i1) =>
           let idName := ((toks.get? (i1 - 1)).map (·.value)).getD ""
           (match peekT toks i1 with
            | some t2 =>
              if t2.type = "LPAREN" then do
                let (_, i2) ← consumeT toks i1 "LPAREN"
                match matchT toks i2 "RPAREN" with
                | (true, i3) => .ok (.node (.FunctionCall idName [] none), i3)
                | (false, _) => do
                  let (a, i3) ← asNode (pRun fuel .expression toks i2)
                  let (args, i4) ← asNodes (pRun fuel (.argsLoop [a]) toks i3)
                  let (_, i5) ← consumeT toks i4 "RPAREN"
                  .ok (.node (.FunctionCall idName args none), i5)
              else .ok (.node (.PrimitiveReadLocation idName none), i1)
            | none => .ok (.node (.PrimitiveReadLocation idName none), i1))
         | (false, _) =>
           if ((peekT toks i).map
               (fun t => decide (t.type ∈ typeNameTokens))).getD false then do
             let typeName := ((peekT toks i).map (·.value)).getD ""
             let (_, i2) ← consumeT toks (i + 1) "LPAREN"
             let (e, i3) ← asNode (pRun fuel .expression toks i2)
             let (_, i4) ← consumeT toks i3 "RPAREN"
             .ok (.node (.TypeConversion typeName e none), i4)
           else
             match peekT toks i with
             | some t => .error (.syntaxError t.lineno)
             | none => .error .attributeError)

/-- `Parser.statement`. -/
def pStatement (fuel : Nat) (toks : List Token) (i : Nat) :
    Except PErr (GNode × Nat) :=
  asNode (pRun fuel .statement toks i)

/-- `Parser.expression`. -/
def pExpression (fuel : Nat) (toks : List Token) (i : Nat) :
    Except PErr (GNode × Nat) :=
  asNode (pRun fuel .expression toks i)

/-- `Parser.factor`. -/
def pFactor (fuel : Nat) (toks : List Token) (i : Nat) :
    Except PErr (GNode × Nat) :=
  asNode (pRun fuel .factor toks i)

/-- The `while` loop of `Parser.parse`. -/
def pParseLoop : Nat → List Token → Nat → List GNode →
    Except PErr (List GNode × Nat)
  | 0, _, _, _ => .error .fuel
  | fuel + 1, toks, i, acc =>
    match peekT toks i with
    | none => .ok (acc, i)
    | some t =>
      if t.type = "EOF" then .ok (acc, i)
      else do
        let (s, i1) ← pStatement fuel toks i
        pParseLoop fuel toks i1 (acc ++ [s])

/-- `Parser(tokens).parse()`: a `Program` of top-level statements. The fuel
bound is generous; parsing consumes fuel per descent step and per loop
iteration, all of which advance the token index or recurse into strictly
smaller constructs. -/
def parseTokens (toks : List Token) : Except PErr GNode := do
  let (stmts, _) ← pParseLoop ((toks.length + 2) * 30) toks 0 []
  .ok (.Program stmts)

/-! ## Type system (typesys.py) -/

/-- `typesys.dict_equivalence.get(op, op)`: translate a token-type operator
name to its one-character form. This is the table in typesys.py (note that,
unlike the similar table inside ircode.py, it has no entry for `CARET`,
`HAT` or `NOT`). -/
def dict_equivalence (op : String) : String :=
  if op = "PLUS" then "+"
  else if op = "MINUS" then "-"
  else if op = "TIMES" then "*"
  else if op = "DIVIDE" then "/"
  else if op = "LT" then "<"
  else if op = "GT" then ">"
  else if op = "ASSIGN" then "="
  else if op = "SEMI" then ";"
  else if op = "LPAREN" then "("
  else if op = "RPAREN" then ")"
  else if op = "LBRACE" then "\x7b"
  else if op = "RBRACE" then "\x7d"
  else if op = "COMMA" then ","
  else if op = "DEREF" then String.mk [Char.ofNat 96]
  else if op = "LE" then "<="
  else if op = "GE" then ">="
  else if op = "EQ" then "=="
  else if op = "NE" then "!="
  else if op = "LAND" then "&&"
  else if op = "LOR" then "||"
  else op

/-- `typesys.bin_ops`: result type of a binary operator. -/
def bin_ops (l op r : String) : Option String :=
  match l, op, r with
  | "int", "+", "int" => some "int"
  | "int", "-", "int" => some "int"
  | "int", "*", "int" => some "int"
  | "int", "/", "int" => some "int"
  | "int", "<", "int" => some "bool"
  | "int", "<=", "int" => some "bool"
  | "int", ">", "int" => some "bool"
  | "int", ">=", "int" => some "bool"
  | "int", "==", "int" => some "bool"
  | "int", "!=", "int" => some "bool"
  | "float", "+", "float" => some "float"
  | "float", "-", "float" => some "float"
  | "float", "*", "float" => some "float"
  | "float", "/", "float" => some "float"
  | "float", "<", "float" => some "bool"
  | "float", "<=", "float" => some "bool"
  | "float", ">", "float" => some "bool"
  | "float", ">=", "float" => some "bool"
  | "float", "==", "float" => some "bool"
  | "float", "!=", "float" => some "bool"
  | "bool", "&&", "bool" => some "bool"
  | "bool", "||", "bool" => some "bool"
  | "bool", "==", "bool" => some "bool"
  | "bool", "!=", "bool" => some "bool"
  | "char", "<", "char" => some "bool"
  | "char", "<=", "char" => some "bool"
  | "char", ">", "char" => some "bool"
  | "char", ">=", "char" => some "bool"
  | "char", "==", "char" => some "bool"
  | "char", "!=", "char" => some "bool"
  | _, _, _ => none

/-- `typesys.check_binop`. -/
def check_binop (op l r : String) : Option String :=
  bin_ops l (dict_equivalence op) r

/-! ## Symbol table

Modelled from the spec: `checkNew.py` imports `Symtab` from `symtab.py`,
which is not among the sources. Per the specification (section 4.3) a
symbol table is a chain of frames, `add(name, entity)` fails when the name
already exists in the current frame (modelled as a no-op), and `get(name)`
walks the chain from the innermost frame outward. The `__setitem__` used by
the while-loop check updates the binding in the current frame. An
environment is the chain of frames with the current frame at the head. -/

/-- An entity stored in the symbol table: an AST node, a parameter, or a
bare boolean flag (the `$loop` sentinel stores `True`/`False`). -/
inductive Entity where
  | node (g : GNode)
  | param (p : Param)
  | flag (b : Bool)

/-- Python truthiness of a stored entity (`if env.get(name):`): nodes and
parameters are truthy objects; a flag is its boolean value; a missing entry
(`None`) is falsy and is handled at the call sites. -/
def Entity.truthy : Entity → Bool
  | .node _ => true
  | .param _ => true
  | .flag b => b

/-- A frame: name-to-entity bindings in insertion order. -/
def Frame := List (String × Entity)

/-- An environment: the chain of frames, innermost first. -/
def Env := List (List (String × Entity))

/-- Find a binding inside one frame. -/
def frameGet (f : List (String × Entity)) (k : String) : Option Entity :=
  match f.find? (fun p => p.1 = k) with
  | some p => some p.2
  | none => none

/-- Modelled from the spec: `Symtab.get` walks the chain outward. -/
def envGet : Env → String → Option Entity
  | [], _ => none
  | f :: rest, k =>
    match frameGet f k with
    | some e => some e
    | none => envGet rest k

/-- Modelled from the spec: `Symtab.add` inserts into the current frame and
fails (here: leaves the table unchanged) when the name already exists
there. -/
def envAdd (env : Env) (k : String) (e : Entity) : Env :=
  match env with
  | [] => []
  | f :: rest => if (frameGet f k).isSome then f :: rest else (f ++ [(k, e)]) :: rest

/-- Modelled from the spec: `Symtab.__setitem__` rebinds the name in the
current frame (inserting it when absent). -/
def envSetItem (env : Env) (k : String) (e : Entity) : Env :=
  match env with
  | [] => []
  | f :: rest =>
    if (frameGet f k).isSome then
      (f.map (fun p => if p.1 = k then (k, e) else p)) :: rest
    else (f ++ [(k, e)]) :: rest

/-- `if env.get(name):` as a boolean. -/
def truthyGet (env : Env) (k : String) : Bool :=
  match envGet env k with
  | some e => e.truthy
  | none => false

/-! ## Checker (checkNew.py)

The checker walks the AST, accumulates diagnostics and annotates nodes.
Diagnostics are represented by `CErr`, one constructor per `error(...)`
call site in checkNew.py, carrying the data interpolated into the message.
Python exceptions thrown during checking (attribute accesses on `None` or
on objects without the attribute) are modelled by `Except.error`; they
abort the check like an uncaught exception aborts the Python process.
Expression visits return the annotated node, the Python return value of
the visit method (a type name, `'error'`, or `None`, modelled as
`Option String`), and the diagnostics they emitted; statement visits
return the annotated node, the updated environment and diagnostics. -/

inductive CErr where
  | varAlreadyDefined (name : String)
  | varTypeMismatch (name : String)
  | funcAlreadyDefined (name : String)
  | nestedFunction (name : String)
  | missingReturn (name : String) (return_type : String)
  | varNotDeclared (name : String)
  | unknownVarType (name : String)
  | incompatibleBinop (lt : Option String) (op : String) (rt : Option String)
  | unaryBadOperand (op : String) (t : Option String)
  | unknownUnaryOp (op : String)
  | funcNotDeclared (name : String)
  | arityMismatch (name : String)
  | argTypeMismatch (fname : String)
  | assignUndefined (name : String)
  | assignConstant (name : String)
  | assignTypeMismatch (name : String)
  | conditionNotBool (t : Option String)
  | whileCondNotBool (t : Option String)
  | breakOutsideLoop
  | continueOutsideLoop
  | returnOutsideFunction
  | returnTypeMismatch (rt : Option String) (ft : String)
  | memAddrNotInt (t : Option String)
deriving DecidableEq, Repr

/-- A Python exception escaping the checker. -/
inductive CCrash where
  | attributeErr
  | fuel
deriving DecidableEq, Repr

/-- Does the Python object for this node have a `.name` attribute?
(Used by `visit_FunctionCall`, whose mismatch message reads `arg.name`
and crashes when the argument node has no such attribute.) -/
def hasNameAttr : GNode → Bool
  | .Literal _ _ => true
  | .PrimitiveReadLocation _ _ => true
  | .PrimitiveAssignmentLocation _ _ => true
  | .FunctionCall _ _ _ => true
  | .VariableDeclaration _ _ _ _ => true
  | .FunctionDefinition _ _ _ _ => true
  | .FunctionImport _ _ _ => true
  | _ => false

/-- `isinstance(stmt, Return)` for the missing-return scan. -/
def isReturnNode : GNode → Bool
  | .Return _ => true
  | _ => false

/-- Requests into the checker engine: one constructor per visit shape.
A single fueled recursion is used, instead of a `mutual` block, so that
concrete checks reduce definitionally; `checkExpr`, `checkStmt` and
`checkStmts` below are thin wrappers. -/
inductive CReq where
  | expr (n : GNode)
  | callArgs (name : String) (ps : List Param) (rt : String)
      (args : List GNode)
  | argsZip (fname : String) (ps : List Param) (args : List GNode)
  | stmt (n : GNode)
  | stmts (ns : List GNode)

/-- Results of the checker engine. -/
inductive CRes where
  | expr (n : GNode) (t : Option String) (errs : List CErr)
  | zip (ns : List GNode) (errs : List CErr)
  | stmt (n : GNode) (env : Env) (errs : List CErr)
  | stmts (ns : List GNode) (env : Env) (errs : List CErr)

def asCExpr (e : Except CCrash CRes) :
    Except CCrash (GNode × Option String × List CErr) :=
  match e with
  | .ok (.expr n t errs) => .ok (n, t, errs)
  | .ok _ => .error .fuel
  | .error err => .error err

def asCZip (e : Except CCrash CRes) :
    Except CCrash (List GNode × List CErr) :=
  match e with
  | .ok (.zip ns errs) => .ok (ns, errs)
  | .ok _ => .error .fuel
  | .error err => .error err

def asCStmt (e : Except CCrash CRes) :
    Except CCrash (GNode × Env × List CErr) :=
  match e with
  | .ok (.stmt n env errs) => .ok (n, env, errs)
  | .ok _ => .error .fuel
  | .error err => .error err

def asCStmts (e : Except CCrash CRes) :
    Except CCrash (List GNode × Env × List CErr) :=
  match e with
  | .ok (.stmts ns env errs) => .ok (ns, env, errs)
  | .ok _ => .error .fuel
  | .error err => .error err

/-- The checker engine, one case per visit method of `checkNew.Checker`,
with the branch structure of the source. Expression visits return the
annotated node, the Python return value of the method (a type name,
`'error'` or `None`) and the diagnostics emitted; statement visits return
the node, the updated environment and the diagnostics. -/
def checkRun : Nat → CReq → Env → Except CCrash CRes
  | 0, _, _ => .error .fuel
  | fuel + 1, req, env =>
    match req with
    | .expr n =>
      (match n with
       | .Literal t v => .ok (.expr (.Literal t v) (some t) [])
       | .PrimitiveReadLocation name ty =>
         (match envGet env name with
          | none => .ok (.expr (.PrimitiveReadLocation name ty) (some "error")
                         [.varNotDeclared name])
          | some (.param p) =>
            .ok (.expr (.PrimitiveReadLocation name (some p.type))
                 (some p.type) [])
          | some (.node (.VariableDeclaration _ vt _ _)) =>
            .ok (.expr (.PrimitiveReadLocation name (some vt)) (some vt) [])
          | some _ =>
            .ok (.expr (.PrimitiveReadLocation name ty) (some "error")
                 [.unknownVarType name]))
       | .BinaryOperation l op r _ => do
         let (l1, lt1, e1) ← asCExpr (checkRun fuel (.expr l) env)
         let (r1, rt1, e2) ← asCExpr (checkRun fuel (.expr r) env)
         -- implicit int→float promotion when the sides disagree
         let (l2, lt2) :=
           if lt1 ≠ rt1 && lt1 = some "int" && rt1 = some "float" then
             ((GNode.TypeConversion "float" l1 none), some "float")
           else (l1, lt1)
         let (r2, rt2) :=
           if lt1 ≠ rt1 && lt1 = some "float" && rt1 = some "int" then
             ((GNode.TypeConversion "float" r1 none), some "float")
           else (r1, rt1)
         let resultType :=
           match lt2, rt2 with
           | some a, some b => check_binop op a b
           | _, _ => none
         match resultType with
         | none =>
           .ok (.expr (.BinaryOperation l2 op r2 (some "error")) none
                (e1 ++ e2 ++ [.incompatibleBinop lt2 op rt2]))
         | some rt =>
           if rt = "error" then
             .ok (.expr (.BinaryOperation l2 op r2 (some "error")) (some rt)
                  (e1 ++ e2 ++ [.incompatibleBinop lt2 op rt2]))
           else
             .ok (.expr (.BinaryOperation l2 op r2 (some rt)) (some rt)
                  (e1 ++ e2))
       | .UnaryOperation op operand ty => do
         let (o1, ot, e1) ← asCExpr (checkRun fuel (.expr operand) env)
         if op = "HAT" then
           if ot ≠ some "int" then
             .ok (.expr (.UnaryOperation op o1 (some "error")) (some "int")
                  (e1 ++ [.unaryBadOperand op ot]))
           else .ok (.expr (.UnaryOperation op o1 ty) (some "int") e1)
         else if op = "NOT" then
           if ot ≠ some "bool" then
             .ok (.expr (.UnaryOperation op o1 (some "error")) (some "bool")
                  (e1 ++ [.unaryBadOperand op ot]))
           else .ok (.expr (.UnaryOperation op o1 ty) (some "bool") e1)
         else if op = "PLUS" || op = "MINUS" then
           if ot ≠ some "int" && ot ≠ some "float" then
             .ok (.expr (.UnaryOperation op o1 (some "error")) ot
                  (e1 ++ [.unaryBadOperand op ot]))
           else .ok (.expr (.UnaryOperation op o1 ty) ot e1)
         else
           .ok (.expr (.UnaryOperation op o1 (some "error")) (some "error")
                (e1 ++ [.unknownUnaryOp op]))
       | .FunctionCall name args ty =>
         (match envGet env name with
          | none => .ok (.expr (.FunctionCall name args ty) (some "error")
                         [.funcNotDeclared name])
          | some ent =>
            if ¬ ent.truthy then
              .ok (.expr (.FunctionCall name args ty) (some "error")
                   [.funcNotDeclared name])
            else
              match ent with
              | .node (.FunctionDefinition _ ps rt _) =>
                checkRun fuel (.callArgs name ps rt args) env
              | .node (.FunctionImport _ ps rt) =>
                checkRun fuel (.callArgs name ps rt args) env
              | _ => .error .attributeErr)
       | .TypeConversion target e _ => do
         let (e1, _, errs) ← asCExpr (checkRun fuel (.expr e) env)
         .ok (.expr (.TypeConversion target e1 (some target)) (some target)
              errs)
       | .MemoryReadLocation addr ty => do
         let (a1, at1, e1) ← asCExpr (checkRun fuel (.expr addr) env)
         if at1 ≠ some "int" then
           .ok (.expr (.MemoryReadLocation a1 ty) (some "error")
                (e1 ++ [.memAddrNotInt at1]))
         else
           .ok (.expr (.MemoryReadLocation a1 (some "int")) (some "int") e1)
       | other =>
         -- `generic_visit`: prints a warning and returns None
         .ok (.expr other none []))
    | .callArgs name ps rt args =>
      -- `visit_FunctionCall` after the callee is resolved
      if ps.length ≠ args.length then
        .ok (.expr (.FunctionCall name args none) (some "error")
             [.arityMismatch name])
      else do
        let (args1, errs) ← asCZip (checkRun fuel (.argsZip name ps args) env)
        .ok (.expr (.FunctionCall name args1 none) (some rt) errs)
    | .argsZip fname ps args =>
      -- the `zip(func_parameters, node_arguments)` loop; the mismatch
      -- message reads `arg.name` and crashes when the argument node has
      -- no such attribute
      (match ps, args with
       | p :: ps1, a :: args1 => do
         let (a1, at1, e1) ← asCExpr (checkRun fuel (.expr a) env)
         let e2 ←
           if (some p.type) ≠ at1 then
             if hasNameAttr a then pure [CErr.argTypeMismatch fname]
             else .error CCrash.attributeErr
           else pure []
         let (rest, erest) ← asCZip (checkRun fuel (.argsZip fname ps1 args1) env)
         .ok (.zip (a1 :: rest) (e1 ++ e2 ++ erest))
       | _, _ => .ok (.zip [] []))
    | .stmt n =>
      (match n with
       | .Program stmts => do
         let (stmts1, env1, errs) ← asCStmts (checkRun fuel (.stmts stmts) env)
         .ok (.stmt (.Program stmts1) env1 errs)
       | .Print e => do
         let (e1, _, errs) ← asCExpr (checkRun fuel (.expr e) env)
         .ok (.stmt (.Print e1) env errs)
       | .VariableDeclaration name vt val isConst =>
         if truthyGet env name then
           .ok (.stmt (.VariableDeclaration name vt val isConst) env
                [.varAlreadyDefined name])
         else do
           let (val1, errs) ← (do
             match val with
             | some v => do
               let (v1, vt1, e1) ← asCExpr (checkRun fuel (.expr v) env)
               if (some vt) ≠ vt1 then
                 .ok (some v1, e1 ++ [CErr.varTypeMismatch name])
               else .ok (some v1, e1)
             | none => .ok ((none : Option GNode), []))
           let node1 := GNode.VariableDeclaration name vt val1 isConst
           .ok (.stmt node1 (envAdd env name (.node node1)) errs)
       | .FunctionDefinition name params rt body =>
         if truthyGet env name then
           .ok (.stmt (.FunctionDefinition name params rt body) env
                [.funcAlreadyDefined name])
         else if truthyGet env "$func" then
           .ok (.stmt (.FunctionDefinition name params rt body) env
                [.nestedFunction name])
         else do
           let env1 := envAdd env name
             (.node (.FunctionDefinition name params rt body))
           -- new frame for the body, marked with the `$func` sentinel,
           -- parameters added as locals
           let localEnv0 : Env := [] :: env1
           let localEnv1 := envAdd localEnv0 "$func"
             (.node (.FunctionDefinition name params rt body))
           let localEnv2 := params.foldl
             (fun e p => envAdd e p.name (.param p)) localEnv1
           let hasReturn := body.any isReturnNode
           let (body1, localEnv3, errsBody) ←
             asCStmts (checkRun fuel (.stmts body) localEnv2)
           let errsMissing :=
             if rt ≠ "VOID" && ¬ hasReturn then [CErr.missingReturn name rt]
             else []
           .ok (.stmt (.FunctionDefinition name params rt body1)
                localEnv3.tail (errsBody ++ errsMissing))
       | .FunctionImport name params rt =>
         if truthyGet env name then
           .ok (.stmt (.FunctionImport name params rt) env
                [.funcAlreadyDefined name])
         else
           .ok (.stmt (.FunctionImport name params rt)
                (envAdd env name (.node (.FunctionImport name params rt))) [])
       | .PrimitiveAssignmentLocation name e =>
         (match envGet env name with
          | none => .ok (.stmt (.PrimitiveAssignmentLocation name e) env
                         [.assignUndefined name])
          | some ent =>
            if ¬ ent.truthy then
              .ok (.stmt (.PrimitiveAssignmentLocation name e) env
                   [.assignUndefined name])
            else
              match ent with
              | .node (.VariableDeclaration _ _ _ true) =>
                .ok (.stmt (.PrimitiveAssignmentLocation name e) env
                     [.assignConstant name])
              | _ => do
                let (e1, et, errs) ← asCExpr (checkRun fuel (.expr e) env)
                let declared : Option String :=
                  match ent with
                  | .param p => some p.type
                  | .node (.VariableDeclaration _ vt _ _) => some vt
                  | _ => none
                let errs2 :=
                  if declared ≠ et then errs ++ [CErr.assignTypeMismatch name]
                  else errs
                .ok (.stmt (.PrimitiveAssignmentLocation name e1) env errs2))
       | .Conditional cond tb fb => do
         let (c1, ct, e1) ← asCExpr (checkRun fuel (.expr cond) env)
         let eCond := if ct ≠ some "bool" then
                        e1 ++ [CErr.conditionNotBool ct]
                      else e1
         let (tb1, env1, e2) ← asCStmts (checkRun fuel (.stmts tb) env)
         match fb with
         | some fbs => do
           let (fb1, env2, e3) ← asCStmts (checkRun fuel (.stmts fbs) env1)
           .ok (.stmt (.Conditional c1 tb1 (some fb1)) env2 (eCond ++ e2 ++ e3))
         | none => .ok (.stmt (.Conditional c1 tb1 none) env1 (eCond ++ e2))
       | .WhileLoop cond body => do
         let (c1, ct, e1) ← asCExpr (checkRun fuel (.expr cond) env)
         let eCond := if ct ≠ some "bool" then
                        e1 ++ [CErr.whileCondNotBool ct]
                      else e1
         let env1 := envAdd env "$loop" (.flag true)
         let (body1, env2, e2) ← asCStmts (checkRun fuel (.stmts body) env1)
         let env3 := envSetItem env2 "$loop" (.flag false)
         .ok (.stmt (.WhileLoop c1 body1) env3 (eCond ++ e2))
       | .Break =>
         if ¬ truthyGet env "$loop" then
           .ok (.stmt .Break env [.breakOutsideLoop])
         else .ok (.stmt .Break env [])
       | .Continue =>
         if ¬ truthyGet env "$loop" then
           .ok (.stmt .Continue env [.continueOutsideLoop])
         else .ok (.stmt .Continue env [])
       | .Return eOpt =>
         if ¬ truthyGet env "$func" then
           .ok (.stmt (.Return eOpt) env [.returnOutsideFunction])
         else
           -- `if node.expression:` is always true (the wrapper Node is
           -- truthy); with no inner expression the visit crashes on
           -- `None.accept`
           (match eOpt with
            | none => .error .attributeErr
            | some ex => do
              let (ex1, rt1, errs) ← asCExpr (checkRun fuel (.expr ex) env)
              match envGet env "$func" with
              | some (.node (.FunctionDefinition _ _ frt _)) =>
                if rt1 ≠ some frt then
                  .ok (.stmt (.Return (some ex1)) env
                       (errs ++ [CErr.returnTypeMismatch rt1 frt]))
                else .ok (.stmt (.Return (some ex1)) env errs)
              | some _ => .error .attributeErr
              | none => .error .attributeErr)
       | .MemoryAssignmentLocation addr value ty => do
         let (a1, at1, e1) ← asCExpr (checkRun fuel (.expr addr) env)
         if at1 ≠ some "int" then
           .ok (.stmt (.MemoryAssignmentLocation a1 value ty) env
                (e1 ++ [.memAddrNotInt at1]))
         else do
           let (v1, vt1, e2) ← asCExpr (checkRun fuel (.expr value) env)
           .ok (.stmt (.MemoryAssignmentLocation a1 v1 vt1) env (e1 ++ e2))
       | other => do
         -- expression nodes in statement position dispatch to the same
         -- class-keyed visit methods
         let (n1, _, errs) ← asCExpr (checkRun fuel (.expr other) env)
         .ok (.stmt n1 env errs))
    | .stmts ns =>
      (match ns with
       | [] => .ok (.stmts [] env [])
       | s :: rest => do
         let (s1, env1, e1) ← asCStmt (checkRun fuel (.stmt s) env)
         let (rest1, env2, e2) ← asCStmts (checkRun fuel (.stmts rest) env1)
         .ok (.stmts (s1 :: rest1) env2 (e1 ++ e2)))

/-- Expression-position visit. -/
def checkExpr (fuel : Nat) (n : GNode) (env : Env) :
    Except CCrash (GNode × Option String × List CErr) :=
  asCExpr (checkRun fuel (.expr n) env)

/-- Statement-position visit. -/
def checkStmt (fuel : Nat) (n : GNode) (env : Env) :
    Except CCrash (GNode × Env × List CErr) :=
  asCStmt (checkRun fuel (.stmt n) env)

/-- Sequential statement checking, threading the environment. -/
def checkStmts (fuel : Nat) (ns : List GNode) (env : Env) :
    Except CCrash (List GNode × Env × List CErr) :=
  asCStmts (checkRun fuel (.stmts ns) env)

/-- `Checker.check`: check a program in a fresh global symbol table.
Returns the annotated AST and the diagnostics (the contents of the
process-wide error sink of errors.py). -/
def checkProgram (fuel : Nat) (n : GNode) :
    Except CCrash (GNode × List CErr) := do
  let (n1, _, errs) ← checkStmt fuel n [[]]
  .ok (n1, errs)

/-! ## IR code generation (ircode.py)

An instruction is an opcode name plus its immediate arguments (the Python
tuples `('CONSTI', 2)`, `('MULI',)`, ...). `IRFunction` and `IRModule`
mirror the classes of ircode.py; the `locals` and `functions` dictionaries
are association lists in insertion order.

Inside the visit methods the bare name `dict_equivalence` resolves to the
module-level import from typesys.py (Python class attributes are not in
scope inside method bodies), so the `IRCode.dict_equivalence` class
attribute - the one with a `CARET` entry - is dead and the typesys table
(which maps neither `HAT`, `NOT` nor `CARET`) is the one in effect. -/

inductive IRArg where
  | intA (n : Int)
  | floatA (q : Rat)
  | strA (s : String)
deriving DecidableEq, Repr

structure Instr where
  op : String
  args : List IRArg
deriving DecidableEq, Repr

/-- An argument-less instruction tuple. -/
def i0 (op : String) : Instr := ⟨op, []⟩

/-- An instruction with an integer immediate. -/
def iI (op : String) (n : Int) : Instr := ⟨op, [.intA n]⟩

/-- An instruction with a float immediate. -/
def iF (op : String) (q : Rat) : Instr := ⟨op, [.floatA q]⟩

/-- An instruction with a string immediate (names). -/
def iS (op : String) (s : String) : Instr := ⟨op, [.strA s]⟩

structure IRFunction where
  name : String
  parmnames : List String
  parmtypes : List String
  return_type : String
  imported : Bool
  locals : List (String × String)
  code : List Instr
deriving Repr

structure IRModule where
  functions : List (String × IRFunction)
  globals : List (String × String)
deriving Repr

/-- Python dict assignment `d[k] = v`: replace in place or append. -/
def alistSet {α : Type} (l : List (String × α)) (k : String) (v : α) :
    List (String × α) :=
  if (l.find? (fun p => p.1 = k)).isSome then
    l.map (fun p => if p.1 = k then (k, v) else p)
  else l ++ [(k, v)]

/-- Python dict lookup. -/
def alistGet {α : Type} (l : List (String × α)) (k : String) : Option α :=
  match l.find? (fun p => p.1 = k) with
  | some p => some p.2
  | none => none

/-- `name in d` for a Python dict. -/
def alistHas {α : Type} (l : List (String × α)) (k : String) : Bool :=
  (l.find? (fun p => p.1 = k)).isSome

def modGetFunc (m : IRModule) (fname : String) : Option IRFunction :=
  alistGet m.functions fname

def modSetFunc (m : IRModule) (fname : String) (f : IRFunction) : IRModule :=
  { m with functions := alistSet m.functions fname f }

/-- `IRFunction.append` on the current function of the module. -/
def funcAppend (m : IRModule) (fname : String) (instr : Instr) : IRModule :=
  match modGetFunc m fname with
  | some f => modSetFunc m fname { f with code := f.code ++ [instr] }
  | none => m

/-- `IRFunction.extend` on the current function of the module. -/
def funcExtend (m : IRModule) (fname : String) (instrs : List Instr) :
    IRModule :=
  match modGetFunc m fname with
  | some f => modSetFunc m fname { f with code := f.code ++ instrs }
  | none => m

/-- `IRFunction.new_local`. -/
def funcNewLocal (m : IRModule) (fname : String) (name ty : String) :
    IRModule :=
  match modGetFunc m fname with
  | some f => modSetFunc m fname { f with locals := alistSet f.locals name ty }
  | none => m

/-- The `IRFunction` constructor: builds the function and registers it in
the module. -/
def newIRFunction (m : IRModule) (name : String)
    (parmnames parmtypes : List String) (rt : String) (imported : Bool) :
    IRModule :=
  modSetFunc m name
    ⟨name, parmnames, parmtypes, rt, imported, [], []⟩

/-- `ircode._typemap.get(t, 'I')`. -/
def typemap (t : String) : String :=
  if t = "int" then "I"
  else if t = "float" then "F"
  else if t = "bool" then "I"
  else if t = "char" then "I"
  else "I"

/-- `IRCode._binop_code`: one-character operator and operand types to
opcode. Note the `('bool', '&&', 'bool') : 'ANDI'` and
`('bool', '||', 'bool') : 'ORI'` entries, commented in the source as
additions. -/
def binopCode (l op r : String) : Option String :=
  match l, op, r with
  | "int", "+", "int" => some "ADDI"
  | "int", "-", "int" => some "SUBI"
  | "int", "*", "int" => some "MULI"
  | "int", "/", "int" => some "DIVI"
  | "int", "<", "int" => some "LTI"
  | "int", "<=", "int" => some "LEI"
  | "int", ">", "int" => some "GTI"
  | "int", ">=", "int" => some "GEI"
  | "int", "==", "int" => some "EQI"
  | "int", "!=", "int" => some "NEI"
  | "float", "+", "float" => some "ADDF"
  | "float", "-", "float" => some "SUBF"
  | "float", "*", "float" => some "MULF"
  | "float", "/", "float" => some "DIVF"
  | "float", "<", "float" => some "LTF"
  | "float", "<=", "float" => some "LEF"
  | "float", ">", "float" => some "GTF"
  | "float", ">=", "float" => some "GEF"
  | "float", "==", "float" => some "EQF"
  | "float", "!=", "float" => some "NEF"
  | "char", "<", "char" => some "LTI"
  | "char", "<=", "char" => some "LEI"
  | "char", ">", "char" => some "GTI"
  | "char", ">=", "char" => some "GEI"
  | "char", "==", "char" => some "EQI"
  | "char", "!=", "char" => some "NEI"
  | "bool", "&&", "bool" => some "ANDI"
  | "bool", "||", "bool" => some "ORI"
  | "bool", "<", "bool" => some "LTI"
  | "bool", "<=", "bool" => some "LEI"
  | "bool", ">", "bool" => some "GTI"
  | "bool", ">=", "bool" => some "GEI"
  | "bool", "==", "bool" => some "EQI"
  | "bool", "!=", "bool" => some "NEI"
  | _, _, _ => none

/-- `IRCode._unaryop_code`: one-character operator and operand type to the
emitted instruction list. -/
def unaryopCode (op t : String) : Option (List Instr) :=
  match op, t with
  | "+", "int" => some []
  | "+", "float" => some []
  | "-", "int" => some [iI "CONSTI" (-1), i0 "MULI"]
  | "-", "float" => some [iF "CONSTF" (-1), i0 "MULF"]
  | "!", "bool" => some [iI "CONSTI" (-1), i0 "MULI"]
  | "^", "int" => some [i0 "GROW"]
  | _, _ => none

/-- `IRCode._typecast_code`. -/
def typecastCode (src dst : String) : Option (List Instr) :=
  match src, dst with
  | "int", "float" => some [i0 "ITOF"]
  | "float", "int" => some [i0 "FTOI"]
  | _, _ => none

/-- Python `int()` truncation toward zero on a rational value. -/
def pyTruncRat (q : Rat) : Int := q.num.tdiv (q.den : Int)

/-- Python `int(...)` applied to a `Literal` value. -/
def pyIntOfVal : PyVal → Option Int
  | .pint n => some n
  | .pfloat q => some (pyTruncRat q)
  | .pstr _ => none

/-- Python `float(...)` applied to a `Literal` value. -/
def pyFloatOfVal : PyVal → Option Rat
  | .pint n => some (n : Rat)
  | .pfloat q => some q
  | .pstr _ => none

/-- The `.type` attribute of a node as the lowerer reads it
(`AttributeError` when absent, conflated here with an attribute that is
`None`; every claim below pins it with an explicit `some`). -/
def getTypeAttr : GNode → Option String
  | .Literal t _ => some t
  | .BinaryOperation _ _ _ ty => ty
  | .UnaryOperation _ _ ty => ty
  | .TypeConversion _ _ ty => ty
  | .FunctionCall _ _ ty => ty
  | .PrimitiveReadLocation _ ty => ty
  | .MemoryReadLocation _ ty => ty
  | .MemoryAssignmentLocation _ _ ty => ty
  | _ => none

/-- Exceptions raised during lowering (`RuntimeError` call sites of
ircode.py plus attribute and value errors). -/
inductive LErr where
  | undefinedVariable (name : String)
  | unsupportedBinop (op lt rt : String)
  | badBoolLiteral (s : String)
  | unsupportedLiteral (t : String)
  | undefinedFunction (name : String)
  | unsupportedMemRead (t : String)
  | unsupportedMemWrite (t : String)
  | unsupportedPrint (t : String)
  | attributeErr
  | valueErr
  | fuel
deriving DecidableEq, Repr

/-- Requests into the lowering engine: one constructor per visit shape.
A single fueled recursion is used, instead of a `mutual` block, so that
concrete lowerings reduce definitionally; `lowerExpr`, `lowerStmt` and
`lowerStmts` below are thin wrappers. -/
inductive LReq where
  | expr (n : GNode)
  | exprList (ns : List GNode)
  | stmt (n : GNode)
  | stmts (ns : List GNode)

/-- Results of the lowering engine. -/
inductive LRes where
  | expr (n : GNode) (m : IRModule)
  | exprList (ns : List GNode) (m : IRModule)
  | mod (m : IRModule)

def asLExpr (e : Except LErr LRes) : Except LErr (GNode × IRModule) :=
  match e with
  | .ok (.expr n m) => .ok (n, m)
  | .ok _ => .error .fuel
  | .error err => .error err

def asLExprList (e : Except LErr LRes) :
    Except LErr (List GNode × IRModule) :=
  match e with
  | .ok (.exprList ns m) => .ok (ns, m)
  | .ok _ => .error .fuel
  | .error err => .error err

def asLMod (e : Except LErr LRes) : Except LErr IRModule :=
  match e with
  | .ok (.mod m) => .ok m
  | .ok _ => .error .fuel
  | .error err => .error err

/-- The lowering engine, one case per visit method of `IRCode`, with the
branch structure of the source. Expression visits append the expression's
instructions to the current function `fname` of module `m` and return the
(possibly re-annotated) node with the updated module. -/
def lowerRun : Nat → LReq → IRModule → String → Except LErr LRes
  | 0, _, _, _ => .error .fuel
  | fuel + 1, req, m, fname =>
    match req with
    | .expr n =>
      (match n with
       | .Literal t v =>
         if t = "int" then
           match pyIntOfVal v with
           | some k =>
             .ok (.expr (.Literal t v) (funcAppend m fname (iI "CONSTI" k)))
           | none => .error .valueErr
         else if t = "float" then
           match pyFloatOfVal v with
           | some q =>
             .ok (.expr (.Literal t v) (funcAppend m fname (iF "CONSTF" q)))
           | none => .error .valueErr
         else if t = "char" then
           match v with
           | .pstr s =>
             (match s.data with
              | [c] => .ok (.expr (.Literal t v)
                            (funcAppend m fname (iI "CONSTI" (c.toNat : Int))))
              | _ => .error .valueErr)
           | _ => .error .attributeErr
         else if t = "bool" then
           match v with
           | .pstr s =>
             if pyLower s = "true" then
               .ok (.expr (.Literal t v) (funcAppend m fname (iI "CONSTI" 1)))
             else if pyLower s = "false" then
               .ok (.expr (.Literal t v) (funcAppend m fname (iI "CONSTI" 0)))
             else .error (.badBoolLiteral s)
           | _ => .error .attributeErr
         else .error (.unsupportedLiteral t)
       | .BinaryOperation l op r ty =>
         if op = "&&" then do
           let (l1, m1) ← asLExpr (lowerRun fuel (.expr l) m fname)
           let m2 := funcAppend m1 fname (i0 "IF")
           let (r1, m3) ← asLExpr (lowerRun fuel (.expr r) m2 fname)
           let m4 := funcExtend m3 fname [i0 "ELSE", iI "CONSTI" 0, i0 "ENDIF"]
           .ok (.expr (.BinaryOperation l1 op r1 ty) m4)
         else if op = "||" then do
           let (l1, m1) ← asLExpr (lowerRun fuel (.expr l) m fname)
           let m2 := funcExtend m1 fname [i0 "IF", iI "CONSTI" 1, i0 "ELSE"]
           let (r1, m3) ← asLExpr (lowerRun fuel (.expr r) m2 fname)
           let m4 := funcAppend m3 fname (i0 "ENDIF")
           .ok (.expr (.BinaryOperation l1 op r1 ty) m4)
         else do
           let (l1, m1) ← asLExpr (lowerRun fuel (.expr l) m fname)
           let (r1, m2) ← asLExpr (lowerRun fuel (.expr r) m1 fname)
           match getTypeAttr l1, getTypeAttr r1 with
           | some lt0, some rt0 => do
             let op1 := dict_equivalence op
             let (m3, lt, rt) :=
               if lt0 ≠ rt0 then
                 if lt0 = "int" && rt0 = "float" then
                   (funcAppend m2 fname (i0 "ITOF"), "float", rt0)
                 else if lt0 = "float" && rt0 = "int" then
                   (funcAppend m2 fname (i0 "FTOI"), lt0, "float")
                 else (m2, lt0, rt0)
               else (m2, lt0, rt0)
             match binopCode lt op1 rt with
             | some opc =>
               .ok (.expr (.BinaryOperation l1 op r1 ty)
                    (funcAppend m3 fname (i0 opc)))
             | none => .error (.unsupportedBinop op1 lt rt)
           | _, _ => .error .attributeErr
       | .UnaryOperation op operand _ => do
         let (o1, m1) ← asLExpr (lowerRun fuel (.expr operand) m fname)
         let op1 := dict_equivalence op
         match getTypeAttr o1 with
         | none => .error .attributeErr
         | some t =>
           let m2 :=
             match unaryopCode op1 t with
             | some ops => if ops ≠ [] then funcExtend m1 fname ops else m1
             | none => m1
           -- `n.type = n.operand.type`
           .ok (.expr (.UnaryOperation op o1 (some t)) m2)
       | .TypeConversion target e _ => do
         let (e1, m1) ← asLExpr (lowerRun fuel (.expr e) m fname)
         match getTypeAttr e1 with
         | none => .error .attributeErr
         | some src =>
           let m2 :=
             match typecastCode src target with
             | some ops => if ops ≠ [] then funcExtend m1 fname ops else m1
             | none => m1
           .ok (.expr (.TypeConversion target e1 (some target)) m2)
       | .FunctionCall name args _ => do
         -- arguments are lowered in reverse order
         let (argsRev, m1) ←
           asLExprList (lowerRun fuel (.exprList args.reverse) m fname)
         let m2 := funcAppend m1 fname (iS "CALL" name)
         match modGetFunc m2 name with
         | some f =>
           .ok (.expr (.FunctionCall name argsRev.reverse
                 (some f.return_type)) m2)
         | none => .error (.undefinedFunction name)
       | .PrimitiveReadLocation name ty =>
         (match modGetFunc m fname with
          | none => .error .attributeErr
          | some f =>
            if alistHas f.locals name then
              .ok (.expr (.PrimitiveReadLocation name ty)
                   (funcAppend m fname (iS "LOCAL_GET" name)))
            else if alistHas m.globals name then
              .ok (.expr (.PrimitiveReadLocation name ty)
                   (funcAppend m fname (iS "GLOBAL_GET" name)))
            else .error (.undefinedVariable name))
       | .MemoryReadLocation addr ty => do
         let (a1, m1) ← asLExpr (lowerRun fuel (.expr addr) m fname)
         match ty with
         | some t =>
           if t = "int" then
             .ok (.expr (.MemoryReadLocation a1 ty)
                  (funcAppend m1 fname (i0 "PEEKI")))
           else if t = "float" then
             .ok (.expr (.MemoryReadLocation a1 ty)
                  (funcAppend m1 fname (i0 "PEEKF")))
           else if t = "char" then
             .ok (.expr (.MemoryReadLocation a1 ty)
                  (funcAppend m1 fname (i0 "PEEKB")))
           else .error (.unsupportedMemRead t)
         | none => .error .attributeErr
       | other => .ok (.expr other m))
    | .exprList ns =>
      -- left-to-right lowering of a list of expressions (used with a
      -- reversed argument list, mirroring `for arg in reversed(...)`)
      (match ns with
       | [] => .ok (.exprList [] m)
       | e :: rest => do
         let (e1, m1) ← asLExpr (lowerRun fuel (.expr e) m fname)
         let (rest1, m2) ← asLExprList (lowerRun fuel (.exprList rest) m1 fname)
         .ok (.exprList (e1 :: rest1) m2))
    | .stmt n =>
      (match n with
       | .PrimitiveAssignmentLocation name e => do
         let (_, m1) ← asLExpr (lowerRun fuel (.expr e) m fname)
         match modGetFunc m1 fname with
         | none => .error .attributeErr
         | some f =>
           if alistHas f.locals name then
             .ok (.mod (funcAppend m1 fname (iS "LOCAL_SET" name)))
           else if alistHas m1.globals name then
             .ok (.mod (funcAppend m1 fname (iS "GLOBAL_SET" name)))
           else .error (.undefinedVariable name)
       | .Conditional cond tb fb => do
         let (_, m1) ← asLExpr (lowerRun fuel (.expr cond) m fname)
         let m2 := funcAppend m1 fname (i0 "IF")
         let m3 ← asLMod (lowerRun fuel (.stmts tb) m2 fname)
         let m5 ← (do
           match fb with
           | some fbs =>
             -- `if n.false_branch:` - an empty list is falsy
             if ¬ fbs.isEmpty then do
               let m4 := funcAppend m3 fname (i0 "ELSE")
               asLMod (lowerRun fuel (.stmts fbs) m4 fname)
             else pure m3
           | none => pure m3)
         .ok (.mod (funcAppend m5 fname (i0 "ENDIF")))
       | .WhileLoop cond body => do
         let m1 := funcAppend m fname (i0 "LOOP")
         let (_, m2) ← asLExpr (lowerRun fuel (.expr cond) m1 fname)
         let m3 := funcAppend m2 fname (i0 "CBREAK")
         let m4 ← asLMod (lowerRun fuel (.stmts body) m3 fname)
         .ok (.mod (funcAppend m4 fname (i0 "ENDLOOP")))
       | .Break =>
         -- the visitor looks for `visit_Break` but the method is named
         -- `visit_break`; dispatch falls through to `generic_visit`, which
         -- visits the node's (empty) children: nothing is emitted
         .ok (.mod m)
       | .Continue => .ok (.mod (funcAppend m fname (i0 "CONTINUE")))
       | .Return _ =>
         -- `n.expression` is the wrapper `Node("Expression", expr)`; its
         -- `accept` dispatches to `generic_visit`, whose loop over the
         -- wrapper's (empty) children emits nothing, so only RET appears
         .ok (.mod (funcAppend m fname (i0 "RET")))
       | .VariableDeclaration name vt val _ => do
         let irType := typemap vt
         let m1 :=
           if fname = "main" then
             { m with globals := alistSet m.globals name irType }
           else funcNewLocal m fname name irType
         match val with
         | some v => do
           let (_, m2) ← asLExpr (lowerRun fuel (.expr v) m1 fname)
           let m3 :=
             match v with
             | .UnaryOperation "HAT" _ _ => funcAppend m2 fname (i0 "GROW")
             | _ => m2
           if fname = "main" then
             .ok (.mod (funcAppend m3 fname (iS "GLOBAL_SET" name)))
           else .ok (.mod (funcAppend m3 fname (iS "LOCAL_SET" name)))
         | none => .ok (.mod m1)
       | .FunctionDefinition name params rt body => do
         let parmtypes := params.map (fun p => typemap p.type)
         let rtIR := typemap rt
         let m1 := newIRFunction m name (params.map (·.name)) parmtypes rtIR
           false
         let m2 := params.foldl
           (fun acc p => funcNewLocal acc name p.name (typemap p.type)) m1
         let m3 ← asLMod (lowerRun fuel (.stmts body) m2 name)
         match modGetFunc m3 name with
         | none => .error .attributeErr
         | some f =>
           if f.code.any (fun i => i.op = "RET") then .ok (.mod m3)
           else
             let m4 := if rtIR ≠ "void" then
                         funcAppend m3 name (iI "CONSTI" 0)
                       else m3
             .ok (.mod (funcAppend m4 name (i0 "RET")))
       | .FunctionImport name params rt =>
         .ok (.mod (newIRFunction m name (params.map (·.name))
               (params.map (fun p => typemap p.type)) (typemap rt) true))
       | .Print e => do
         let (e1, m1) ← asLExpr (lowerRun fuel (.expr e) m fname)
         match getTypeAttr e1 with
         | none => .error .attributeErr
         | some t =>
           if t = "int" || t = "I" then
             .ok (.mod (funcAppend m1 fname (i0 "PRINTI")))
           else if t = "float" || t = "F" then
             .ok (.mod (funcAppend m1 fname (i0 "PRINTF")))
           else if t = "char" || t = "C" then
             .ok (.mod (funcAppend m1 fname (i0 "PRINTB")))
           else if t = "bool" || t = "B" then
             .ok (.mod (funcAppend m1 fname (i0 "PRINTI")))
           else .error (.unsupportedPrint t)
       | .MemoryAssignmentLocation addr value _ => do
         let (_, m1) ← asLExpr (lowerRun fuel (.expr addr) m fname)
         let (v1, m2) ← asLExpr (lowerRun fuel (.expr value) m1 fname)
         match getTypeAttr v1 with
         | none => .error .attributeErr
         | some t =>
           if t = "int" then .ok (.mod (funcAppend m2 fname (i0 "POKEI")))
           else if t = "float" then
             .ok (.mod (funcAppend m2 fname (i0 "POKEF")))
           else if t = "char" then
             .ok (.mod (funcAppend m2 fname (i0 "POKEB")))
           else .error (.unsupportedMemWrite t)
       | other => do
         -- expression nodes in statement position use the class-keyed
         -- visits
         let (_, m1) ← asLExpr (lowerRun fuel (.expr other) m fname)
         .ok (.mod m1))
    | .stmts ns =>
      (match ns with
       | [] => .ok (.mod m)
       | s :: rest => do
         let m1 ← asLMod (lowerRun fuel (.stmt s) m fname)
         lowerRun fuel (.stmts rest) m1 fname)

/-- Expression-position lowering. -/
def lowerExpr (fuel : Nat) (n : GNode) (m : IRModule) (fname : String) :
    Except LErr (GNode × IRModule) :=
  asLExpr (lowerRun fuel (.expr n) m fname)

/-- Statement-position lowering. -/
def lowerStmt (fuel : Nat) (n : GNode) (m : IRModule) (fname : String) :
    Except LErr IRModule :=
  asLMod (lowerRun fuel (.stmt n) m fname)

/-- Sequential statement lowering. -/
def lowerStmts (fuel : Nat) (ns : List GNode) (m : IRModule) (fname : String) :
    Except LErr IRModule :=
  asLMod (lowerRun fuel (.stmts ns) m fname)

/-- `IRCode.gencode`: lower a whole program. Top-level statements lower
into a pseudo-function `main` (no parameters, IR return type `I`); a
trailing `CALL _actual_main` or `CONSTI 0`, then `RET`, is appended. -/
def gencode (fuel : Nat) (prog : GNode) : Except LErr IRModule :=
  match prog with
  | .Program stmts => do
    let m0 : IRModule := ⟨[], []⟩
    let m1 := newIRFunction m0 "main" [] [] "I" false
    let m2 ← lowerStmts fuel stmts m1 "main"
    let m3 :=
      if alistHas m2.functions "_actual_main" then
        funcAppend m2 "main" (iS "CALL" "_actual_main")
      else funcAppend m2 "main" (iI "CONSTI" 0)
    .ok (funcAppend m3 "main" (i0 "RET"))
  | _ => .error .attributeErr

/-! ## Stack machine (stack_machine.py)

An operand-stack cell is a Python pair `(tag, value)`; the tag is one of
`int/float/bool/char` and the value is a Python number, modelled by
`PyNum` (`int` as `Int`, `float` as `Rat`, `bool` as `Bool`). Python
lists used as stacks have their top at the head here. Linear memory is a
list of byte values. -/

/-- A Python numeric payload. -/
inductive PyNum where
  | pi (n : Int)
  | pf (q : Rat)
  | pb (b : Bool)
deriving DecidableEq, Repr

/-- The numeric value of a payload (`True == 1`, `False == 0`). -/
def PyNum.toRat : PyNum → Rat
  | .pi n => (n : Rat)
  | .pf q => q
  | .pb b => if b then 1 else 0

/-- The payload as a Python `int` when it is one (`bool` is a subtype of
`int` in Python). -/
def PyNum.toIntOpt : PyNum → Option Int
  | .pi n => some n
  | .pf _ => none
  | .pb b => some (if b then 1 else 0)

/-- Python truthiness of a numeric payload. -/
def PyNum.truthy : PyNum → Bool
  | .pi n => n ≠ 0
  | .pf q => q ≠ 0
  | .pb b => b

/-- Python `a + b` and friends: `int` results stay `int`, anything
involving a `float` becomes `float`. -/
def pyArith (f : Int → Int → Int) (g : Rat → Rat → Rat) (a b : PyNum) :
    PyNum :=
  match a.toIntOpt, b.toIntOpt with
  | some x, some y => .pi (f x y)
  | _, _ => .pf (g a.toRat b.toRat)

/-- An operand-stack cell `(tag, value)`. -/
structure VMVal where
  tag : String
  val : PyNum
deriving DecidableEq, Repr

def vint (n : Int) : VMVal := ⟨"int", .pi n⟩
def vfloat (q : Rat) : VMVal := ⟨"float", .pf q⟩
def vbool (b : Bool) : VMVal := ⟨"bool", .pb b⟩
def vchar (n : Int) : VMVal := ⟨"char", .pi n⟩

/-- A return record pushed by `op_CALL`: return PC, the caller's locals
frame (or `None`), and the caller's frame pointer. -/
structure CallRec where
  pc : Nat
  locals : Option (List VMVal)
  fp : Nat
deriving Repr

/-- An entry of the VM's `functions` table as built by the
`stack_machine.py` main program: entry address and `num_locals`. -/
structure FuncInfo where
  address : Nat
  num_locals : Nat
deriving DecidableEq, Repr

structure VMState where
  stack : List VMVal
  memory : List Nat
  globals : List (String × VMVal)
  locals_stack : List (List VMVal)
  call_stack : List CallRec
  functions : List (String × FuncInfo)
  pc : Nat
  program : List Instr
  running : Bool
  labels : List (String × Nat)
  sp : Nat
  fp : Nat
  output : String
deriving Repr

/-- Python exceptions escaping the VM, one constructor per raise site
kind. `argErr` is the `TypeError` Python raises when `method(*args)` is
called with the wrong number of arguments (e.g. a label-less `CBREAK`). -/
inductive VMErr where
  | popEmpty
  | underflow
  | typeErr (op : String)
  | zeroDiv
  | nameErr (name : String)
  | indexErr
  | structErr
  | valueErr
  | memoryErr
  | unknownInstr (op : String)
  | argErr (op : String)
  | fuel
deriving DecidableEq, Repr

/-- `self.stack.pop()`: Python raises `IndexError` on an empty list. -/
def popV (st : VMState) : Except VMErr (VMVal × VMState) :=
  match st.stack with
  | [] => .error .popEmpty
  | v :: rest => .ok (v, { st with stack := rest })

def pushV (v : VMVal) (st : VMState) : VMState :=
  { st with stack := v :: st.stack }

/-- `math.isclose(a, b)` with the default tolerances
(`rel_tol=1e-9`, `abs_tol=0.0`). -/
def mathIsClose (a b : Rat) : Bool :=
  |a - b| ≤ max (mkRat 1 1000000000 * max |a| |b|) 0

/-- `math.isclose(b, 0.0, abs_tol=1e-12)` as used by `op_DIVF`. -/
def iscloseZero (b : Rat) : Bool :=
  |b| ≤ max (mkRat 1 1000000000 * max |b| 0) (mkRat 1 1000000000000)

/-- `StackMachine._binary_op`: pop b then a; `int`-tagged pair goes to
`int_op` (result tagged `int`), `float`-tagged pair to `float_op` (result
tagged `float`); otherwise `TypeError`. -/
def binaryOpV (opName : String)
    (intOp : PyNum → PyNum → Except VMErr PyNum)
    (floatOp : PyNum → PyNum → Except VMErr PyNum)
    (st : VMState) : Except VMErr VMState := do
  let (b, st1) ← popV st
  let (a, st2) ← popV st1
  if a.tag = "int" && b.tag = "int" then do
    let v ← intOp a.val b.val
    .ok (pushV ⟨"int", v⟩ st2)
  else if a.tag = "float" && b.tag = "float" then do
    let v ← floatOp a.val b.val
    .ok (pushV ⟨"float", v⟩ st2)
  else .error (.typeErr opName)

/-- `StackMachine._compare_op`: like `_binary_op` but pushing a `bool`. -/
def compareOpV (opName : String)
    (intOp : PyNum → PyNum → Bool)
    (floatOp : PyNum → PyNum → Bool)
    (st : VMState) : Except VMErr VMState := do
  let (b, st1) ← popV st
  let (a, st2) ← popV st1
  if a.tag = "int" && b.tag = "int" then
    .ok (pushV (vbool (intOp a.val b.val)) st2)
  else if a.tag = "float" && b.tag = "float" then
    .ok (pushV (vbool (floatOp a.val b.val)) st2)
  else .error (.typeErr opName)

/-- Clamp a Python slice index to `[0, len]`. -/
def pySliceIdx (i : Int) (len : Nat) : Nat :=
  if i < 0 then ((len : Int) + i).toNat else min i.toNat len

/-- Python `mem[lo:hi]` for a contiguous slice. -/
def pySliceGet (mem : List Nat) (lo hi : Int) : List Nat :=
  let l := pySliceIdx lo mem.length
  let h := pySliceIdx hi mem.length
  (mem.drop l).take (h - l)

/-- Python `mem[lo:hi] = bytes` on a bytearray: the slice is removed and
the byte string spliced in (lengths may differ). -/
def pySliceSet (mem : List Nat) (lo hi : Int) (bytes : List Nat) :
    List Nat :=
  let l := pySliceIdx lo mem.length
  let h := pySliceIdx hi mem.length
  mem.take l ++ bytes ++ mem.drop (max l h)

/-- Python `mem[i]` with negative-index wrap-around. -/
def pyIndex (mem : List Nat) (i : Int) : Option Nat :=
  if 0 ≤ i then mem.get? i.toNat
  else
    let j := (mem.length : Int) + i
    if 0 ≤ j then mem.get? j.toNat else none

/-- Python `mem[i] = v` with negative-index wrap-around. -/
def pyIndexSet (mem : List Nat) (i : Int) (v : Nat) : Option (List Nat) :=
  if 0 ≤ i then
    if i.toNat < mem.length then some (mem.set i.toNat v) else none
  else
    let j := (mem.length : Int) + i
    if 0 ≤ j then
      if j.toNat < mem.length then some (mem.set j.toNat v) else none
    else none

/-- Little-endian 4-byte encoding of a non-negative integer below 2^32. -/
def toLE4 (n : Nat) : List Nat :=
  [n % 256, n / 256 % 256, n / 65536 % 256, n / 16777216 % 256]

/-- Little-endian 4-byte decoding. -/
def fromLE4 (bs : List Nat) : Nat :=
  match bs with
  | [b0, b1, b2, b3] => b0 + 256 * b1 + 65536 * b2 + 16777216 * b3
  | _ => 0

/-- `struct.unpack('<i', ...)`: little-endian two's-complement int32. -/
def unpackI32 (bs : List Nat) : Int :=
  let n := fromLE4 bs
  if n < 2 ^ 31 then (n : Int) else (n : Int) - 2 ^ 32

/-- `struct.pack('<i', v)`: fails (struct.error) outside int32 range. -/
def packI32 (v : Int) : Option (List Nat) :=
  if v < -(2 ^ 31) || 2 ^ 31 ≤ v then none
  else some (toLE4 ((v % (2 ^ 32 : Int)).toNat))

/-- `struct.unpack('<f', ...)`: exact rational value of an IEEE-754
single-precision number. Infinities and NaNs (exponent 255) have no
rational value and are mapped to 0; no claim exercises them. -/
def ieee32ToRat (bs : List Nat) : Rat :=
  let n := fromLE4 bs
  let sign : Nat := n / 2 ^ 31
  let ex : Nat := n / 2 ^ 23 % 256
  let frac : Nat := n % 2 ^ 23
  let mag : Rat :=
    if ex = 0 then mkRat (frac : Int) (2 ^ 149)
    else if ex = 255 then 0
    else if 150 ≤ ex then (((2 ^ 23 + frac) * 2 ^ (ex - 150) : Nat) : Rat)
    else mkRat ((2 ^ 23 + frac : Nat) : Int) (2 ^ (150 - ex))
  if sign = 1 then -mag else mag

/-- `struct.pack('<f', v)`: IEEE-754 rounding to single precision is not
modelled (no claim inspects the bytes written by `POKEF`, only the length
of memory, which is independent of the byte values). -/
def encodeF32 (_ : Rat) : List Nat := [0, 0, 0, 0]

/-- `StackMachine._grow_memory`. -/
def growMemory (st : VMState) (amount : Nat) : VMState :=
  { st with memory := st.memory ++ List.replicate amount 0 }

/-- `StackMachine._mem_access`: pop an address; require an `int` tag;
grow memory by exactly the deficit when `addr + size` exceeds its length;
return the address. -/
def memAccess (size : Nat) (st : VMState) (opName : String) :
    Except VMErr (Int × VMState) := do
  let (a, st1) ← popV st
  if a.tag ≠ "int" then .error (.typeErr opName)
  else
    match a.val.toIntOpt with
    | none => .error (.typeErr opName)
    | some addr =>
      if addr + size > (st1.memory.length : Int) then
        .ok (addr, growMemory st1 (addr + size - st1.memory.length).toNat)
      else .ok (addr, st1)

/-- Python `int(str)` (optional sign, decimal digits). -/
def pyIntParse (s : String) : Option Int :=
  let core (ds : List Char) : Option Nat :=
    if ds ≠ [] && ds.all Char.isDigit then
      some (ds.foldl (fun n c => n * 10 + (c.toNat - 48)) 0)
    else none
  match s.data with
  | '-' :: ds => (core ds).map (fun n => -(n : Int))
  | '+' :: ds => (core ds).map (fun n => (n : Int))
  | ds => (core ds).map (fun n => (n : Int))

/-- Python `str(...)` of a cell payload, as printed by `PRINTI`/`PRINTF`.
Python's decimal formatting of floats is not modelled; the value is shown
as an exact fraction (no claim inspects printed floats). -/
def pyStr (v : PyNum) : String :=
  match v with
  | .pi n => toString n
  | .pf q => toString q.num ++ "/" ++ toString q.den
  | .pb b => if b then "True" else "False"

/-- `chr(n)` for `PRINTB`. -/
def pyChr (n : Int) : Option String :=
  if 0 ≤ n && n < 1114112 then some (String.mk [Char.ofNat n.toNat]) else none

/-- The argument-popping loop of `op_CALL`: pop `num_locals` values,
substituting the default cell `('int', 0)` when the stack runs dry.
Returns the popped values (in pop order) and the remaining stack. -/
def popN : Nat → List VMVal → List VMVal × List VMVal
  | 0, s => ([], s)
  | n + 1, [] =>
    let (a, r) := popN n []
    (vint 0 :: a, r)
  | n + 1, v :: s =>
    let (a, r) := popN n s
    (v :: a, r)

/-- The string-walking loop of `op_PRINTS`. -/
def printsGo : Nat → VMState → Int → Nat → Except VMErr VMState
  | 0, _, _, _ => .error .fuel
  | fuel + 1, st, addr, i =>
    if addr + i ≥ (st.memory.length : Int) then .error .memoryErr
    else
      match pyIndex st.memory (addr + i) with
      | none => .error .indexErr
      | some 0 => .ok st
      | some b =>
        match pyChr b with
        | some s => printsGo fuel { st with output := st.output ++ s } addr (i + 1)
        | none => .error .valueErr

/-- One instruction dispatch of `StackMachine.run`: the `op_<name>` method
for opcode `op` applied to immediate arguments `args`. An opcode without a
method raises `RuntimeError` (`unknownInstr`); a wrong number of immediates
raises `TypeError` (`argErr`), as Python does when calling the bound method.
-/
def stepOp (op : String) (args : List IRArg) (st : VMState) :
    Except VMErr VMState :=
  if op = "LABEL" then
    match args with
    | [_] => .ok st
    | _ => .error (.argErr op)
  else if op = "GOTO" then
    match args with
    | [.strA l] =>
      (match alistGet st.labels l with
       | some t => .ok { st with pc := t }
       | none => .error (.nameErr l))
    | [_] => .error (.nameErr op)
    | _ => .error (.argErr op)
  else if op = "CONSTI" then
    match args with
    | [.intA n] => .ok (pushV (vint n) st)
    | [.floatA q] => .ok (pushV (vint (pyTruncRat q)) st)
    | [.strA s] =>
      (match pyIntParse s with
       | some n => .ok (pushV (vint n) st)
       | none => .error .valueErr)
    | _ => .error (.argErr op)
  else if op = "CONSTF" then
    match args with
    | [.floatA q] => .ok (pushV (vfloat q) st)
    | [.intA n] => .ok (pushV (vfloat (n : Rat)) st)
    | [.strA _] => .error .valueErr
    | _ => .error (.argErr op)
  else if op = "CONSTB" then
    match args with
    | [.intA n] => .ok (pushV (vbool (n ≠ 0)) st)
    | [.floatA q] => .ok (pushV (vbool (q ≠ 0)) st)
    | [.strA s] => .ok (pushV (vbool (s ≠ "")) st)
    | _ => .error (.argErr op)
  else if op = "CONSTC" then
    match args with
    | [.strA s] =>
      (match s.data with
       | [c] => .ok (pushV (vchar (c.toNat : Int)) st)
       | _ => .error (.typeErr op))
    | [.intA n] => .ok (pushV (vchar n) st)
    | [.floatA q] => .ok (pushV (vchar (pyTruncRat q)) st)
    | _ => .error (.argErr op)
  else if op = "POP" then
    match args with
    | [] =>
      (match st.stack with
       | [] => .error .underflow
       | _ :: rest => .ok { st with stack := rest })
    | _ => .error (.argErr op)
  else if op = "ADDI" then
    match args with
    | [] => binaryOpV "ADDI"
        (fun a b => .ok (pyArith (· + ·) (· + ·) a b))
        (fun a b => .ok (pyArith (· + ·) (· + ·) a b)) st
    | _ => .error (.argErr op)
  else if op = "SUBI" then
    match args with
    | [] => binaryOpV "SUBI"
        (fun a b => .ok (pyArith (· - ·) (· - ·) a b))
        (fun a b => .ok (pyArith (· - ·) (· - ·) a b)) st
    | _ => .error (.argErr op)
  else if op = "MULI" then
    match args with
    | [] => binaryOpV "MULI"
        (fun a b => .ok (pyArith (· * ·) (· * ·) a b))
        (fun a b => .ok (pyArith (· * ·) (· * ·) a b)) st
    | _ => .error (.argErr op)
  else if op = "DIVI" then
    match args with
    | [] => binaryOpV "DIVI"
        (fun a b =>
          if b.toRat = 0 then .error .zeroDiv
          else .ok (pyArith Int.fdiv (fun x y => (x / y).floor) a b))
        (fun a b =>
          if b.toRat = 0 then .error .zeroDiv
          else .ok (.pf (a.toRat / b.toRat))) st
    | _ => .error (.argErr op)
  else if op = "ADDF" then
    match args with
    | [] => binaryOpV "ADDF"
        (fun a b => .ok (.pf (a.toRat + b.toRat)))
        (fun a b => .ok (pyArith (· + ·) (· + ·) a b)) st
    | _ => .error (.argErr op)
  else if op = "SUBF" then
    match args with
    | [] => binaryOpV "SUBF"
        (fun a b => .ok (.pf (a.toRat - b.toRat)))
        (fun a b => .ok (pyArith (· - ·) (· - ·) a b)) st
    | _ => .error (.argErr op)
  else if op = "MULF" then
    match args with
    | [] => binaryOpV "MULF"
        (fun a b => .ok (.pf (a.toRat * b.toRat)))
        (fun a b => .ok (pyArith (· * ·) (· * ·) a b)) st
    | _ => .error (.argErr op)
  else if op = "DIVF" then
    match args with
    | [] => binaryOpV "DIVF"
        (fun a b =>
          if b.toRat = 0 then .error .zeroDiv
          else .ok (.pf (a.toRat / b.toRat)))
        (fun a b =>
          if iscloseZero b.toRat then .error .zeroDiv
          else .ok (.pf (a.toRat / b.toRat))) st
    | _ => .error (.argErr op)
  else if op = "ANDI" then
    match args with
    | [] => do
      let (b, st1) ← popV st
      let (a, st2) ← popV st1
      let (aTag, aB) := if a.tag = "int" then ("bool", a.val.truthy)
                        else (a.tag, a.val.truthy)
      let (bTag, bB) := if b.tag = "int" then ("bool", b.val.truthy)
                        else (b.tag, b.val.truthy)
      if aTag = "bool" && bTag = "bool" then
        .ok (pushV (vbool (aB && bB)) st2)
      else .error (.typeErr op)
    | _ => .error (.argErr op)
  else if op = "ORI" then
    match args with
    | [] => do
      let (b, st1) ← popV st
      let (a, st2) ← popV st1
      let (aTag, aB) := if a.tag = "int" then ("bool", a.val.truthy)
                        else (a.tag, a.val.truthy)
      let (bTag, bB) := if b.tag = "int" then ("bool", b.val.truthy)
                        else (b.tag, b.val.truthy)
      if aTag = "bool" && bTag = "bool" then
        .ok (pushV (vbool (aB || bB)) st2)
      else .error (.typeErr op)
    | _ => .error (.argErr op)
  else if op = "NOTI" then
    match args with
    | [] => do
      let (v, st1) ← popV st
      if v.tag = "bool" then .ok (pushV (vbool (¬ v.val.truthy)) st1)
      else .error (.typeErr op)
    | _ => .error (.argErr op)
  else if op = "EQI" then
    match args with
    | [] => compareOpV "EQI" (fun a b => a.toRat = b.toRat)
        (fun a b => mathIsClose a.toRat b.toRat) st
    | _ => .error (.argErr op)
  else if op = "NEI" then
    match args with
    | [] => compareOpV "NEI" (fun a b => a.toRat ≠ b.toRat)
        (fun a b => ¬ mathIsClose a.toRat b.toRat) st
    | _ => .error (.argErr op)
  else if op = "LTI" then
    match args with
    | [] => compareOpV "LTI" (fun a b => a.toRat < b.toRat)
        (fun a b => a.toRat < b.toRat) st
    | _ => .error (.argErr op)
  else if op = "LEI" then
    match args with
    | [] => compareOpV "LEI" (fun a b => a.toRat ≤ b.toRat)
        (fun a b => a.toRat ≤ b.toRat) st
    | _ => .error (.argErr op)
  else if op = "GTI" then
    match args with
    | [] => compareOpV "GTI" (fun a b => b.toRat < a.toRat)
        (fun a b => b.toRat < a.toRat) st
    | _ => .error (.argErr op)
  else if op = "GEI" then
    match args with
    | [] => compareOpV "GEI" (fun a b => b.toRat ≤ a.toRat)
        (fun a b => b.toRat ≤ a.toRat) st
    | _ => .error (.argErr op)
  else if op = "LTF" then
    match args with
    | [] => compareOpV "LTF" (fun a b => a.toRat < b.toRat)
        (fun a b => a.toRat < b.toRat) st
    | _ => .error (.argErr op)
  else if op = "LEF" then
    match args with
    | [] => compareOpV "LEF" (fun a b => a.toRat ≤ b.toRat)
        (fun a b => a.toRat ≤ b.toRat) st
    | _ => .error (.argErr op)
  else if op = "GTF" then
    match args with
    | [] => compareOpV "GTF" (fun a b => b.toRat < a.toRat)
        (fun a b => b.toRat < a.toRat) st
    | _ => .error (.argErr op)
  else if op = "GEF" then
    match args with
    | [] => compareOpV "GEF" (fun a b => b.toRat ≤ a.toRat)
        (fun a b => b.toRat ≤ a.toRat) st
    | _ => .error (.argErr op)
  else if op = "EQF" then
    match args with
    | [] => compareOpV "EQF" (fun a b => mathIsClose a.toRat b.toRat)
        (fun a b => mathIsClose a.toRat b.toRat) st
    | _ => .error (.argErr op)
  else if op = "NEF" then
    match args with
    | [] => compareOpV "NEF" (fun a b => ¬ mathIsClose a.toRat b.toRat)
        (fun a b => ¬ mathIsClose a.toRat b.toRat) st
    | _ => .error (.argErr op)
  else if op = "ITOF" then
    match args with
    | [] => do
      let (v, st1) ← popV st
      if v.tag = "int" then .ok (pushV (vfloat v.val.toRat) st1)
      else .error (.typeErr op)
    | _ => .error (.argErr op)
  else if op = "FTOI" then
    match args with
    | [] => do
      let (v, st1) ← popV st
      if v.tag = "float" then
        .ok (pushV (vint (pyTruncRat v.val.toRat)) st1)
      else .error (.typeErr op)
    | _ => .error (.argErr op)
  else if op = "GROW" then
    match args with
    | [] => do
      let (v, st1) ← popV st
      if v.tag ≠ "int" then .error (.typeErr op)
      else
        match v.val.toIntOpt with
        | none => .error (.typeErr op)
        | some n =>
          if n < 0 then .error .valueErr
          else
            let st2 := growMemory st1 n.toNat
            .ok (pushV (vint (st2.memory.length : Int)) st2)
    | _ => .error (.argErr op)
  else if op = "PEEKI" then
    match args with
    | [] => do
      let (addr, st1) ← memAccess 4 st "PEEKI"
      let bytes := pySliceGet st1.memory addr (addr + 4)
      if bytes.length = 4 then .ok (pushV (vint (unpackI32 bytes)) st1)
      else .error .structErr
    | _ => .error (.argErr op)
  else if op = "POKEI" then
    match args with
    | [] => do
      let (v, st1) ← popV st
      if v.tag ≠ "int" then .error (.typeErr op)
      else
        match v.val.toIntOpt with
        | none => .error .structErr
        | some value => do
          let (addr, st2) ← memAccess 4 st1 "POKEI"
          match packI32 value with
          | none => .error .structErr
          | some bytes =>
            .ok { st2 with memory := pySliceSet st2.memory addr (addr + 4) bytes }
    | _ => .error (.argErr op)
  else if op = "PEEKF" then
    match args with
    | [] => do
      let (addr, st1) ← memAccess 4 st "PEEKF"
      let bytes := pySliceGet st1.memory addr (addr + 4)
      if bytes.length = 4 then .ok (pushV (vfloat (ieee32ToRat bytes)) st1)
      else .error .structErr
    | _ => .error (.argErr op)
  else if op = "POKEF" then
    match args with
    | [] => do
      let (v, st1) ← popV st
      if v.tag ≠ "float" then .error (.typeErr op)
      else do
        let (addr, st2) ← memAccess 4 st1 "POKEF"
        .ok { st2 with
              memory := pySliceSet st2.memory addr (addr + 4)
                (encodeF32 v.val.toRat) }
    | _ => .error (.argErr op)
  else if op = "PEEKB" then
    match args with
    | [] => do
      let (addr, st1) ← memAccess 1 st "PEEKB"
      match pyIndex st1.memory addr with
      | some b => .ok (pushV (vint (b : Int)) st1)
      | none => .error .indexErr
    | _ => .error (.argErr op)
  else if op = "POKEB" then
    match args with
    | [] => do
      let (v, st1) ← popV st
      match v.val.toIntOpt with
      | some value =>
        if v.tag ≠ "int" || value < 0 || 255 < value then
          .error (.typeErr op)
        else do
          let (addr, st2) ← memAccess 1 st1 "POKEB"
          match pyIndexSet st2.memory addr value.toNat with
          | some mem => .ok { st2 with memory := mem }
          | none => .error .indexErr
      | none => .error (.typeErr op)
    | _ => .error (.argErr op)
  else if op = "GLOBAL_GET" then
    match args with
    | [.strA name] =>
      (match alistGet st.globals name with
       | some v => .ok (pushV v st)
       | none => .error (.nameErr name))
    | [_] => .error (.nameErr op)
    | _ => .error (.argErr op)
  else if op = "GLOBAL_SET" then
    match args with
    | [.strA name] => do
      let (v, st1) ← popV st
      .ok { st1 with globals := alistSet st1.globals name v }
    | [_] => do
      let (_, st1) ← popV st
      .ok st1
    | _ => .error (.argErr op)
  else if op = "LOCAL_GET" then
    match args with
    | [.intA idx] =>
      (match st.locals_stack with
       | [] => .error .indexErr
       | frame :: _ =>
         if idx < (frame.length : Int) then
           match
             (if 0 ≤ idx then frame.get? idx.toNat
              else if 0 ≤ (frame.length : Int) + idx then
                frame.get? ((frame.length : Int) + idx).toNat
              else none) with
           | some v => .ok (pushV v st)
           | none => .error .indexErr
         else .error .indexErr)
    | [.strA _] => .error (.typeErr op)   -- `str < int` comparison TypeError
    | [.floatA _] => .error (.typeErr op) -- `list[float]` TypeError
    | _ => .error (.argErr op)
  else if op = "LOCAL_SET" then
    match args with
    | [.intA idx] =>
      (match st.locals_stack with
       | [] => .error .indexErr
       | frame :: framesRest =>
         if idx < (frame.length : Int) then do
           let (v, st1) ← popV st
           let j : Int := if 0 ≤ idx then idx else (frame.length : Int) + idx
           if 0 ≤ j && j < (frame.length : Int) then
             .ok { st1 with locals_stack := frame.set j.toNat v :: framesRest }
           else .error .indexErr
         else .error .indexErr)
    | [.strA _] => .error (.typeErr op)
    | [.floatA _] => .error (.typeErr op)
    | _ => .error (.argErr op)
  else if op = "IF" then
    match args with
    | [.strA l] => do
      let (v, st1) ← popV st
      let (tag, b) := if v.tag = "int" then ("bool", v.val.truthy)
                      else (v.tag, v.val.truthy)
      if tag ≠ "bool" then .error (.typeErr op)
      else if ¬ b then
        match alistGet st1.labels l with
        | some t => .ok { st1 with pc := t }
        | none => .error (.nameErr l)
      else .ok { st1 with pc := st1.pc + 1 }
    | _ => .error (.argErr op)
  else if op = "ELSE" then
    match args with
    | [.strA l] =>
      (match alistGet st.labels l with
       | some t => .ok { st with pc := t }
       | none => .error (.nameErr l))
    | [_] => .error (.nameErr op)
    | _ => .error (.argErr op)
  else if op = "ENDIF" then
    match args with
    | [] => .ok st
    | _ => .error (.argErr op)
  else if op = "LOOP" then
    match args with
    | [_] => .ok st
    | _ => .error (.argErr op)
  else if op = "CBREAK" then
    match args with
    | [.strA l] => do
      let (v, st1) ← popV st
      let (tag, b) := if v.tag = "int" then ("bool", v.val.truthy)
                      else (v.tag, v.val.truthy)
      if tag ≠ "bool" then .error (.typeErr op)
      else if b then
        match alistGet st1.labels l with
        | some t => .ok { st1 with pc := t }
        | none => .error (.nameErr l)
      else .ok st1
    | _ => .error (.argErr op)
  else if op = "CONTINUE" then
    match args with
    | [.strA l] =>
      (match alistGet st.labels l with
       | some t => .ok { st with pc := t }
       | none => .error (.nameErr l))
    | [_] => .error (.nameErr op)
    | _ => .error (.argErr op)
  else if op = "ENDLOOP" then
    match args with
    | [.strA l] =>
      (match alistGet st.labels l with
       | some t => .ok { st with pc := t }
       | none => .error (.nameErr l))
    | [_] => .error (.nameErr op)
    | _ => .error (.argErr op)
  else if op = "CALL" then
    match args with
    | [.strA name] =>
      (match alistGet st.functions name with
       | none => .error (.nameErr name)
       | some info =>
         let rec_ : CallRec :=
           ⟨st.pc + 1, st.locals_stack.head?, st.fp⟩
         let (argsPopped, rest) := popN info.num_locals st.stack
         .ok { st with
               call_stack := rec_ :: st.call_stack,
               stack := rest,
               locals_stack := argsPopped.reverse :: st.locals_stack,
               fp := rest.length,
               pc := info.address })
    | [_] => .error (.nameErr op)
    | _ => .error (.argErr op)
  else if op = "RET" then
    match args with
    | [] =>
      (match st.call_stack with
       | [] => .ok { st with running := false }
       | info :: csRest =>
         .ok { st with
               call_stack := csRest,
               pc := info.pc,
               locals_stack := st.locals_stack.tail,
               fp := info.fp })
    | _ => .error (.argErr op)
  else if op = "DEF_FUNC" then
    match args with
    | [_, _] => .ok st
    | _ => .error (.argErr op)
  else if op = "PRINTI" then
    match args with
    | [] => do
      let (v, st1) ← popV st
      if v.tag = "int" then .ok { st1 with output := st1.output ++ pyStr v.val }
      else if v.tag = "bool" then
        .ok { st1 with output := st1.output ++ (if v.val.truthy then "1" else "0") }
      else .error (.typeErr op)
    | _ => .error (.argErr op)
  else if op = "PRINTF" then
    match args with
    | [] => do
      let (v, st1) ← popV st
      if v.tag = "float" then
        .ok { st1 with output := st1.output ++ pyStr v.val }
      else .error (.typeErr op)
    | _ => .error (.argErr op)
  else if op = "PRINTB" then
    match args with
    | [] => do
      let (v, st1) ← popV st
      if v.tag = "bool" then
        .ok { st1 with
              output := st1.output ++ (if v.val.truthy then "true" else "false") }
      else
        match v.val.toIntOpt with
        | some n =>
          if v.tag = "char" then
            match pyChr n with
            | some s => .ok { st1 with output := st1.output ++ s }
            | none => .error .valueErr
          else if v.tag = "int" && 0 ≤ n && n ≤ 255 then
            match pyChr n with
            | some s => .ok { st1 with output := st1.output ++ s }
            | none => .error .valueErr
          else if v.tag = "int" then
            match pyChr (n % 256) with
            | some s => .ok { st1 with output := st1.output ++ s }
            | none => .error .valueErr
          else .error (.typeErr op)
        | none => .error (.typeErr op)
    | _ => .error (.argErr op)
  else if op = "PRINTS" then
    match args with
    | [] => do
      let (v, st1) ← popV st
      if v.tag ≠ "int" then .error (.typeErr op)
      else
        match v.val.toIntOpt with
        | some addr => printsGo (st1.memory.length + 1) st1 addr 0
        | none => .error (.typeErr op)
    | _ => .error (.argErr op)
  else .error (.unknownInstr op)

/-- Opcodes after which `StackMachine.run` does not advance the PC. -/
def noAdvance (op : String) : Bool :=
  op = "CALL" || op = "IF" || op = "LOOP" || op = "CBREAK" || op = "RET"

/-- The fetch-dispatch-advance loop of `StackMachine.run`. -/
def runLoop : Nat → VMState → Except VMErr VMState
  | 0, _ => .error .fuel
  | fuel + 1, st =>
    if st.running && st.pc < st.program.length then
      match st.program.get? st.pc with
      | none => .ok st
      | some instr => do
        let st1 ← stepOp instr.op instr.args st
        let st2 := if st1.running && ¬ noAdvance instr.op then
                     { st1 with pc := st1.pc + 1 }
                   else st1
        runLoop fuel st2
    else .ok st

/-- `StackMachine._parse_labels`. -/
def parseLabels (program : List Instr) : List (String × Nat) :=
  (program.enum.filterMap
    (fun p =>
      match p.2 with
      | ⟨"LABEL", [.strA l]⟩ => some (l, p.1)
      | _ => none))

/-- A fresh `StackMachine()` with a loaded program and functions table
(memory is 1024 zero bytes). -/
def initVM (program : List Instr) (functions : List (String × FuncInfo)) :
    VMState :=
  { stack := [], memory := List.replicate 1024 0, globals := [],
    locals_stack := [], call_stack := [], functions := functions,
    pc := 0, program := program, running := true,
    labels := parseLabels program, sp := 0, fp := 0, output := "" }

/-- `StackMachine.run`. -/
def runVM (fuel : Nat) (program : List Instr)
    (functions : List (String × FuncInfo)) : Except VMErr VMState :=
  runLoop fuel { initVM program functions with running := true }

/-- The program assembly of the `stack_machine.py` main block: concatenate
every function's code in module order and record each function's entry
address and `num_locals = len(func.locals)`. -/
def buildProgram (m : IRModule) : List Instr × List (String × FuncInfo) :=
  m.functions.foldl
    (fun acc p =>
      (acc.1 ++ p.2.code,
       alistSet acc.2 p.1 ⟨acc.1.length, p.2.locals.length⟩))
    ([], [])

/-! ## The full pipeline (the `__main__` block of stack_machine.py) -/

/-- A failure anywhere in the pipeline. -/
inductive PipeErr where
  | lex (e : LexError)
  | parse (e : PErr)
  | check (e : CCrash)
  | diagnostics (errs : List CErr)
  | lower (e : LErr)
  | vm (e : VMErr)
deriving Repr, DecidableEq

/-- Lex, parse, check; when no diagnostics were reported, lower and run,
returning what the VM wrote to standard output. -/
def pipeline (src : String) : Except PipeErr String := do
  let toks ← (tokenize src).mapError PipeErr.lex
  let ast ← (parseTokens toks).mapError PipeErr.parse
  let (ast1, errs) ← (checkProgram 1000 ast).mapError PipeErr.check
  if errs.isEmpty then do
    let m ← (gencode 1000 ast1).mapError PipeErr.lower
    let (program, funcs) := buildProgram m
    let stF ← (runVM 100000 program funcs).mapError PipeErr.vm
    .ok stF.output
  else .error (.diagnostics errs)

/-- Lex, parse, check and lower, returning the instruction list of the
module's `main` function (for claims about emitted code). -/
def pipelineIR (src : String) : Except PipeErr (List Instr) := do
  let toks ← (tokenize src).mapError PipeErr.lex
  let ast ← (parseTokens toks).mapError PipeErr.parse
  let (ast1, errs) ← (checkProgram 1000 ast).mapError PipeErr.check
  if errs.isEmpty then do
    let m ← (gencode 1000 ast1).mapError PipeErr.lower
    match modGetFunc m "main" with
    | some f => .ok f.code
    | none => .ok []
  else .error (.diagnostics errs)

/-- Lex, parse and check, returning the diagnostics the checker
reported. -/
def checkSource (src : String) : Except PipeErr (List CErr) := do
  let toks ← (tokenize src).mapError PipeErr.lex
  let ast ← (parseTokens toks).mapError PipeErr.parse
  let (_, errs) ← (checkProgram 1000 ast).mapError PipeErr.check
  .ok errs

/-- Lex, parse, check and lower, returning the VM functions table that the
stack_machine.py main block builds (entry address and `num_locals`). -/
def pipelineFuncs (src : String) :
    Except PipeErr (List (String × FuncInfo)) := do
  let toks ← (tokenize src).mapError PipeErr.lex
  let ast ← (parseTokens toks).mapError PipeErr.parse
  let (ast1, errs) ← (checkProgram 1000 ast).mapError PipeErr.check
  if errs.isEmpty then do
    let m ← (gencode 1000 ast1).mapError PipeErr.lower
    .ok (buildProgram m).2
  else .error (.diagnostics errs)

/-- A fresh module holding only the empty entry function, as `gencode`
creates it (used to exercise single lowering steps). -/
def demoMod : IRModule := newIRFunction ⟨[], []⟩ "main" [] [] "I" false

/-- A VM state about to execute a `CBREAK` at pc 3 whose loop-exit label
`L` is at pc 9, with the popped condition value on the stack. -/
def cbreakDemo (b : Bool) : VMState :=
  { initVM [] [] with stack := [vbool b], labels := [("L", 9)], pc := 3 }

/-- The functions table produced by compiling
`func f(n int) int { var t int = 3; return n; } print f(20);`:
`main` occupies addresses 0-4 and `f` starts at 5 with
`num_locals = 2` (its one parameter plus the body-local `t`). -/
def c5funcs : List (String × FuncInfo) := [("main", ⟨0, 0⟩), ("f", ⟨5, 2⟩)]

/-- A VM state at the `CALL f` of that program, with two operand-stack
values; the top (`20`) is the first argument under the lowering's reversed
push order. -/
def c5state : VMState :=
  { initVM [] c5funcs with stack := [vint 20, vint 10], pc := 1 }

/-- A VM state whose stack holds a single `('float', 29/10)` cell. -/
def ftoiDemo : VMState := { initVM [] [] with stack := [vfloat (mkRat 29 10)] }

/-- A VM state about to `CALL g` where `g` has `num_locals = 3` but only
one value sits on the operand stack, exercising the default fill. -/
def c9state : VMState :=
  { initVM [] [("g", ⟨7, 3⟩)] with stack := [vint 1] }

/-- The state `op_CALL` produces from `c5state` when calling `f`
(`num_locals = 2`): both stack cells are consumed and land reversed in the
fresh locals frame, so slot 0 holds `10` rather than the argument `20`. -/
def c5result : VMState :=
  { c5state with
    call_stack := [⟨2, none, 0⟩], stack := [],
    locals_stack := [[vint 10, vint 20]], fp := 0, pc := 5 }

/-- A VM state with a two-byte memory about to `PEEKB` at address 3,
exercising the automatic growth. -/
def c8state : VMState :=
  { initVM [] [] with memory := [7, 7], stack := [vint 3] }

/-- The state after that `PEEKB`: memory grew by the two-byte deficit to
reach `3 + 1 = 4` bytes and the byte read (`0`) was pushed. -/
def c8result : VMState :=
  { c8state with stack := [vint 0], memory := [7, 7, 0, 0] }

/-- The diagnostics carried by a checker-engine result. -/
def cresErrs : CRes → List CErr
  | .expr _ _ e => e
  | .zip _ e => e
  | .stmt _ _ e => e
  | .stmts _ _ e => e

/-- The updated environment carried by a statement-shaped checker result
(expression results leave the environment untouched and carry none). -/
def cresEnv : CRes → Option Env
  | .stmt _ env _ => some env
  | .stmts _ env _ => some env
  | _ => none

/-- Invariant of checker results reached inside a function body: no
missing-return diagnostic is emitted and the `$func` sentinel stays
truthy in the returned environment. -/
def CResOk (res : CRes) : Prop :=
  (∀ nm rt, CErr.missingReturn nm rt ∉ cresErrs res) ∧
  (∀ env2, cresEnv res = some env2 → truthyGet env2 "$func" = true)

/-! ## Claims

Each claim of the specification is settled by exactly one theorem below
(with a witness or a counterexample where required). Helper lemmas precede
them. -/

/-- Inversion for the parser-result projection. -/
theorem asNode_ok_iff {e : Except PErr (PRes × Nat)} {g : GNode} {i : Nat} :
    asNode e = .ok (g, i) ↔ e = .ok (.node g, i) := by
  cases e with
  | error err => simp [asNode]
  | ok r =>
    obtain ⟨res, j⟩ := r
    cases res <;> simp [asNode]

/-- Inversion for the lowering-result projection (expressions). -/
theorem asLExpr_ok_iff {e : Except LErr LRes} {n : GNode} {m : IRModule} :
    asLExpr e = .ok (n, m) ↔ e = .ok (.expr n m) := by
  cases e with
  | error err => simp [asLExpr]
  | ok r => cases r <;> simp [asLExpr]

/-- Inversion for the lowering-result projection (statement lists). -/
theorem asLMod_ok_iff {e : Except LErr LRes} {m : IRModule} :
    asLMod e = .ok m ↔ e = .ok (.mod m) := by
  cases e with
  | error err => simp [asLMod]
  | ok r => cases r <;> simp [asLMod]

/-- Inversion for the checker-result projection (expressions). -/
theorem asCExpr_ok_iff {e : Except CCrash CRes} {n : GNode}
    {t : Option String} {errs : List CErr} :
    asCExpr e = .ok (n, t, errs) ↔ e = .ok (.expr n t errs) := by
  cases e with
  | error err => simp [asCExpr]
  | ok r => cases r <;> simp [asCExpr]

/-- Inversion for the checker-result projection (statements). -/
theorem asCStmt_ok_iff {e : Except CCrash CRes} {n : GNode} {env : Env}
    {errs : List CErr} :
    asCStmt e = .ok (n, env, errs) ↔ e = .ok (.stmt n env errs) := by
  cases e with
  | error err => simp [asCStmt]
  | ok r => cases r <;> simp [asCStmt]

/-- Inversion for the checker-result projection (statement lists). -/
theorem asCStmts_ok_iff {e : Except CCrash CRes} {ns : List GNode} {env : Env}
    {errs : List CErr} :
    asCStmts e = .ok (ns, env, errs) ↔ e = .ok (.stmts ns env errs) := by
  cases e with
  | error err => simp [asCStmts]
  | ok r => cases r <;> simp [asCStmts]

/-- C1: the lowerer emits `LOOP; <condition>; CBREAK; <body>; ENDLOOP` for
a While loop (first conjunct, for `while true { print 1; }`), but the VM's
`op_CBREAK` pops the value and jumps out to its label exactly when that
value is TRUE - its docstring says "break si el tope es verdadero" - and
stays put when it is false (second and third conjuncts), the opposite of
the claim's exit-on-false convention; moreover the emitted `('CBREAK',)`
carries no label immediate at all, so dispatching it raises `TypeError`
(fourth conjunct). The lowered loop therefore does not execute its body
while the source condition holds. -/
theorem C1_cbreak_convention :
    pipelineIR "while true { print 1; }" = .ok
      [i0 "LOOP", iI "CONSTI" 1, i0 "CBREAK", iI "CONSTI" 1, i0 "PRINTI",
       i0 "ENDLOOP", iI "CONSTI" 0, i0 "RET"] ∧
    (stepOp "CBREAK" [.strA "L"] (cbreakDemo true)).map (·.pc) = .ok 9 ∧
    (stepOp "CBREAK" [.strA "L"] (cbreakDemo false)).map (·.pc) = .ok 3 ∧
    stepOp "CBREAK" [] (cbreakDemo true) = .error (.argErr "CBREAK") :=
  ⟨rfl, rfl, rfl, rfl⟩

/-- C2: the program `print 2 + 3 * 4;` compiles cleanly through lexer,
parser, checker and lowerer and the VM writes exactly `14`: the parser
binds `*` tighter than `+`, so the emitted code multiplies 3 and 4 before
adding 2, and `PRINTI` prints the evaluated result. -/
theorem C2_print_arith_pipeline :
    pipeline "print 2 + 3 * 4;" = .ok "14" ∧
    pipelineIR "print 2 + 3 * 4;" = .ok
      [iI "CONSTI" 2, iI "CONSTI" 3, iI "CONSTI" 4, i0 "MULI", i0 "ADDI",
       i0 "PRINTI", iI "CONSTI" 0, i0 "RET"] :=
  ⟨rfl, rfl⟩

/-- C3 counterexample: `print !true;` compiles cleanly, but the unary `!`
on a bool operand lowers to no instruction at all - the parser stores the
operator as `NOT`, which `typesys.dict_equivalence` does not translate, so
the `('!', 'bool')` row of `_unaryop_code` is never reached - refuting the
claim that `!` on bool emits `CONSTI -1; MULI`. -/
theorem C3_not_lowering_counterexample :
    pipelineIR "print !true;" = .ok
      [iI "CONSTI" 1, i0 "PRINTI", iI "CONSTI" 0, i0 "RET"] ∧
    pipelineIR "print !true;" ≠ .ok
      [iI "CONSTI" 1, iI "CONSTI" (-1), i0 "MULI", i0 "PRINTI",
       iI "CONSTI" 0, i0 "RET"] :=
  ⟨rfl, by decide⟩

/-- C4 counterexample: `print true && false;` lowers to
`CONSTI 1; CONSTI 0; ANDI` - the short-circuit branch of
`visit_BinaryOperation` tests for the literal operator string `&&`, but
parser-produced nodes carry `LAND`, so the generic path runs and emits the
single `ANDI` opcode after both operands, refuting the claimed
`IF/ELSE/ENDIF` sequence. -/
theorem C4_land_counterexample :
    pipelineIR "print true && false;" = .ok
      [iI "CONSTI" 1, iI "CONSTI" 0, i0 "ANDI", i0 "PRINTI",
       iI "CONSTI" 0, i0 "RET"] ∧
    pipelineIR "print true && false;" ≠ .ok
      [iI "CONSTI" 1, i0 "IF", iI "CONSTI" 0, i0 "ELSE", iI "CONSTI" 0,
       i0 "ENDIF", i0 "PRINTI", iI "CONSTI" 0, i0 "RET"] :=
  ⟨rfl, by decide⟩

/-- C6 counterexample: `func f() int { if true { return 0; } }` contains a
`Return` of the matching type `int` nested inside the `if`, yet the checker
still reports the missing-return diagnostic - the scan
`for stmt in node.body: if isinstance(stmt, Return)` looks only at the top
level of the body - refuting the claim's "if at least one Return with
matching type occurs somewhere in the body, no such diagnostic is
reported". The second conjunct shows the contrast with a top-level
`Return`. -/
theorem C6_nested_return_counterexample :
    checkSource "func f() int { if true { return 0; } }" =
      .ok [CErr.missingReturn "f" "int"] ∧
    checkSource "func f() int { return 0; }" = .ok [] :=
  ⟨rfl, rfl⟩

/-- C7 counterexample: on the input `@x;` the lexer raises `ValueError`
at the first illegal character and returns no tokens: scanning does not
resume at the next byte and nothing after the `@` is ever tokenized,
refuting the claim that tokenization continues. -/
theorem C7_resume_counterexample :
    tokenize "@x;" = .error (.illegalChar 1 '@') ∧
    (tokenize "@x;").isOk = false :=
  ⟨rfl, rfl⟩

/-- C7 amended: the lexer aborts on the first illegal byte with a
`ValueError` naming the current line: whatever follows an initial illegal
`@` is never scanned (first conjunct, for every continuation), and in a
multi-line input with several illegal bytes only the first is reported,
with its line number (second conjunct - the `$`, `&` and the whole third
line are never reached). -/
theorem C7_lexer_abort_amended :
    (∀ cs : List Char,
       tokenize (String.mk ('@' :: cs)) = .error (.illegalChar 1 '@')) ∧
    tokenize "print 1;\n@ $ &\nprint 2;" = .error (.illegalChar 2 '@') :=
  ⟨fun cs => by cases cs <;> rfl, rfl⟩

/-- C3 amended: after the operand's code, `visit_UnaryOperation` emits
`CONSTI -1; MULI` for `-` on int and `CONSTF -1.0; MULF` for `-` on float
(parser operator `MINUS`, mapped to `-` by `typesys.dict_equivalence`),
and nothing for `+` (`PLUS`, mapped to `+`, whose table row is the empty
list); but for `!` (parser operator `NOT`) and `^` (parser operator `HAT`)
it also emits nothing - `typesys.dict_equivalence` maps neither name, so
the `('!', 'bool')` and `('^', 'int')` rows of `_unaryop_code` are dead.
In every case the node is re-annotated with the operand's type. -/
theorem C3_unary_lowering_amended (fuel : Nat) (operand o1 : GNode)
    (m m1 : IRModule) (fname : String) (ty : Option String)
    (h : lowerExpr fuel operand m fname = .ok (o1, m1)) :
    (getTypeAttr o1 = some "int" →
       lowerExpr (fuel + 1) (.UnaryOperation "MINUS" operand ty) m fname =
         .ok (.UnaryOperation "MINUS" o1 (some "int"),
              funcExtend m1 fname [iI "CONSTI" (-1), i0 "MULI"])) ∧
    (getTypeAttr o1 = some "float" →
       lowerExpr (fuel + 1) (.UnaryOperation "MINUS" operand ty) m fname =
         .ok (.UnaryOperation "MINUS" o1 (some "float"),
              funcExtend m1 fname [iF "CONSTF" (-1), i0 "MULF"])) ∧
    (getTypeAttr o1 = some "int" →
       lowerExpr (fuel + 1) (.UnaryOperation "PLUS" operand ty) m fname =
         .ok (.UnaryOperation "PLUS" o1 (some "int"), m1)) ∧
    (getTypeAttr o1 = some "bool" →
       lowerExpr (fuel + 1) (.UnaryOperation "NOT" operand ty) m fname =
         .ok (.UnaryOperation "NOT" o1 (some "bool"), m1)) ∧
    (getTypeAttr o1 = some "int" →
       lowerExpr (fuel + 1) (.UnaryOperation "HAT" operand ty) m fname =
         .ok (.UnaryOperation "HAT" o1 (some "int"), m1)) := by
  have h' : lowerRun fuel (.expr operand) m fname = .ok (.expr o1 m1) :=
    asLExpr_ok_iff.mp h
  refine ⟨fun ht => ?_, fun ht => ?_, fun ht => ?_, fun ht => ?_,
          fun ht => ?_⟩ <;>
    simp [lowerExpr, lowerRun, h', asLExpr, ht, dict_equivalence,
      unaryopCode, iI, iF, i0, bind, Except.bind]

set_option maxHeartbeats 2000000 in
/-- C3 witness: lowering `-5` (a `MINUS` node over the int literal `5`)
appends `CONSTI -1; MULI` after the operand's `CONSTI 5`. -/
theorem C3_unary_lowering_witness :
    lowerExpr 2 (.UnaryOperation "MINUS" (.Literal "int" (.pint 5)) none)
      demoMod "main" =
      .ok (.UnaryOperation "MINUS" (.Literal "int" (.pint 5)) (some "int"),
           funcExtend (funcAppend demoMod "main" (iI "CONSTI" 5)) "main"
             [iI "CONSTI" (-1), i0 "MULI"]) :=
  (C3_unary_lowering_amended 1 (.Literal "int" (.pint 5))
    (.Literal "int" (.pint 5)) demoMod
    (funcAppend demoMod "main" (iI "CONSTI" 5)) "main" none rfl).1 rfl

set_option maxHeartbeats 1000000 in
/-- C4 amended: a checked `a && b` node carries operator `LAND` (and
`a || b` carries `LOR`), so the lowerer's short-circuit branch - which
tests for the literal strings `&&` and `||` - never fires on
parser-produced nodes; instead both operands are lowered and a single
`ANDI` (resp. `ORI`) opcode is appended, with no short-circuiting. The
claimed structured `IF/ELSE/ENDIF` scheme exists in the code but is
reachable only for a node whose operator is the literal string `&&`, as
the final conjunct shows on a concrete node. -/
theorem C4_shortcircuit_amended (fuel : Nat) (a b a1 b1 : GNode)
    (m m1 m2 : IRModule) (fname : String) (ty : Option String)
    (ha : lowerExpr fuel a m fname = .ok (a1, m1))
    (hb : lowerExpr fuel b m1 fname = .ok (b1, m2))
    (hta : getTypeAttr a1 = some "bool")
    (htb : getTypeAttr b1 = some "bool") :
    lowerExpr (fuel + 1) (.BinaryOperation a "LAND" b ty) m fname =
      .ok (.BinaryOperation a1 "LAND" b1 ty,
           funcAppend m2 fname (i0 "ANDI")) ∧
    lowerExpr (fuel + 1) (.BinaryOperation a "LOR" b ty) m fname =
      .ok (.BinaryOperation a1 "LOR" b1 ty,
           funcAppend m2 fname (i0 "ORI")) ∧
    lowerExpr 2 (.BinaryOperation (.Literal "bool" (.pstr "true")) "&&"
        (.Literal "bool" (.pstr "false")) none) demoMod "main" =
      .ok (.BinaryOperation (.Literal "bool" (.pstr "true")) "&&"
        (.Literal "bool" (.pstr "false")) none,
        funcExtend demoMod "main"
          [iI "CONSTI" 1, i0 "IF", iI "CONSTI" 0, i0 "ELSE", iI "CONSTI" 0,
           i0 "ENDIF"]) := by
  have ha' : lowerRun fuel (.expr a) m fname = .ok (.expr a1 m1) :=
    asLExpr_ok_iff.mp ha
  have hb' : lowerRun fuel (.expr b) m1 fname = .ok (.expr b1 m2) :=
    asLExpr_ok_iff.mp hb
  have hand : binopCode "bool" "&&" "bool" = some "ANDI" := rfl
  have hor : binopCode "bool" "||" "bool" = some "ORI" := rfl
  refine ⟨?_, ?_, ?_⟩
  · simp [lowerExpr, lowerRun, ha', hb', asLExpr, hta, htb,
      dict_equivalence, hand, i0, bind, Except.bind]
  · simp [lowerExpr, lowerRun, ha', hb', asLExpr, hta, htb,
      dict_equivalence, hor, i0, bind, Except.bind]
  · rfl

/-- The popping loop of `op_CALL` takes the top `n` stack cells in pop
order and pads with the default cell `('int', 0)` when the stack runs
dry; the rest of the stack is what remains. -/
theorem popN_spec (n : Nat) (s : List VMVal) :
    popN n s =
      (s.take n ++ List.replicate (n - s.length) (vint 0), s.drop n) := by
  induction n generalizing s with
  | zero => simp [popN]
  | succ k ih =>
    cases s with
    | nil => simp [popN, ih, List.replicate_succ]
    | cons v rest => simp [popN, ih]

/-- Characterization of `op_CALL` when the callee is present in the
functions table: the return record is pushed, `num_locals` cells are
popped (padded with `('int', 0)`), the reversed pops become the new
locals frame, the frame pointer becomes the remaining stack height, and
the PC jumps to the entry address. -/
theorem stepCALL_eq (st : VMState) (name : String) (info : FuncInfo)
    (h : alistGet st.functions name = some info) :
    stepOp "CALL" [.strA name] st = .ok { st with
      call_stack :=
        ⟨st.pc + 1, st.locals_stack.head?, st.fp⟩ :: st.call_stack,
      stack := st.stack.drop info.num_locals,
      locals_stack := (st.stack.take info.num_locals ++
          List.replicate (info.num_locals - st.stack.length) (vint 0)).reverse
        :: st.locals_stack,
      fp := (st.stack.drop info.num_locals).length,
      pc := info.address } := by
  simp [stepOp, h, popN_spec]

set_option maxHeartbeats 2000000 in
/-- C4 witness: lowering the checked AST of `true && false` (operator
`LAND`, both sides annotated `bool`) emits the two operands and a single
`ANDI`. -/
theorem C4_shortcircuit_witness :
    lowerExpr 2 (.BinaryOperation (.Literal "bool" (.pstr "true")) "LAND"
        (.Literal "bool" (.pstr "false")) (some "bool")) demoMod "main" =
      .ok (.BinaryOperation (.Literal "bool" (.pstr "true")) "LAND"
             (.Literal "bool" (.pstr "false")) (some "bool"),
           funcAppend (funcAppend (funcAppend demoMod "main" (iI "CONSTI" 1))
             "main" (iI "CONSTI" 0)) "main" (i0 "ANDI")) :=
  (C4_shortcircuit_amended 1 (.Literal "bool" (.pstr "true"))
    (.Literal "bool" (.pstr "false")) (.Literal "bool" (.pstr "true"))
    (.Literal "bool" (.pstr "false")) demoMod
    (funcAppend demoMod "main" (iI "CONSTI" 1))
    (funcAppend (funcAppend demoMod "main" (iI "CONSTI" 1)) "main"
      (iI "CONSTI" 0)) "main" (some "bool") rfl rfl rfl rfl).1

/-- C5 counterexample: compiling
`func f(n int) int { var t int = 3; return n; } print f(20);` records
`num_locals = 2` for `f` although `f` declares a single parameter, and
`op_CALL` from a state with `20` (the argument) on top of an unrelated
`10` pops BOTH cells — the arity is one — and the reversed frame puts the
unrelated `10` in slot 0, not the first declared parameter. -/
theorem C5_arity_counterexample :
    pipelineFuncs
        "func f(n int) int { var t int = 3; return n; } print f(20);" =
      .ok c5funcs ∧
    (alistGet c5funcs "f").map FuncInfo.num_locals = some 2 ∧
    stepOp "CALL" [.strA "f"] c5state = .ok c5result ∧
    c5result.stack = [] ∧
    c5result.locals_stack = [[vint 10, vint 20]] ∧
    ([[vint 10, vint 20]].head?.map List.head?) ≠ some (some (vint 20)) :=
  ⟨rfl, rfl, rfl, rfl, rfl, by decide⟩

/-- C5 amended: when the callee is found, `op_CALL` pushes the return
record `(pc + 1, current frame, fp)`, pops `num_locals` cells (the
callee's parameter count PLUS its body locals, not its arity), installs
them reversed as the fresh frame — so slot 0 holds the LAST cell popped —
sets `fp` to the remaining stack height and jumps to the entry address. -/
theorem C5_call_amended (st : VMState) (name : String) (info : FuncInfo)
    (st' : VMState) (h : alistGet st.functions name = some info)
    (hrun : stepOp "CALL" [.strA name] st = .ok st') :
    st'.call_stack =
      ⟨st.pc + 1, st.locals_stack.head?, st.fp⟩ :: st.call_stack ∧
    st'.stack = st.stack.drop info.num_locals ∧
    st'.locals_stack = (st.stack.take info.num_locals ++
        List.replicate (info.num_locals - st.stack.length) (vint 0)).reverse
      :: st.locals_stack ∧
    st'.fp = (st.stack.drop info.num_locals).length ∧
    st'.pc = info.address := by
  rw [stepCALL_eq st name info h] at hrun
  cases hrun
  exact ⟨rfl, rfl, rfl, rfl, rfl⟩

/-- C5 witness: calling `f` (`num_locals = 2`, entry 5) from `c5state`
yields exactly `c5result`. -/
theorem C5_call_witness :
    alistGet c5state.functions "f" = some (⟨5, 2⟩ : FuncInfo) ∧
    stepOp "CALL" [.strA "f"] c5state = .ok c5result ∧
    c5result.call_stack = [⟨2, none, 0⟩] ∧
    c5result.stack = [] ∧
    c5result.locals_stack = [[vint 10, vint 20]] ∧
    c5result.pc = 5 := by
  have h := C5_call_amended c5state "f" ⟨5, 2⟩ c5result rfl rfl
  exact ⟨rfl, rfl, by rw [h.1]; rfl, by rw [h.2.1]; rfl,
    by rw [h.2.2.1]; rfl, by rw [h.2.2.2.2]⟩

/-- C9: when the operand stack holds fewer than `num_locals` cells,
`op_CALL` raises no underflow: the `default=('int', 0)` of the popping
loop fills every missing slot, the whole stack is consumed, and the call
proceeds to the entry address as usual. -/
theorem C9_call_padding (st : VMState) (name : String) (info : FuncInfo)
    (h : alistGet st.functions name = some info)
    (hlt : st.stack.length < info.num_locals) :
    stepOp "CALL" [.strA name] st = .ok { st with
      call_stack :=
        ⟨st.pc + 1, st.locals_stack.head?, st.fp⟩ :: st.call_stack,
      stack := [],
      locals_stack := (List.replicate (info.num_locals - st.stack.length)
          (vint 0) ++ st.stack.reverse) :: st.locals_stack,
      fp := 0,
      pc := info.address } := by
  rw [stepCALL_eq st name info h]
  rw [List.take_of_length_le (Nat.le_of_lt hlt),
    List.drop_eq_nil_of_le (Nat.le_of_lt hlt), List.reverse_append,
    List.reverse_replicate]
  rfl

/-- C9 witness: calling `g` (`num_locals = 3`) with a single stack cell
`1` builds the frame `[0, 0, 1]` — two default fills under the one real
value — and execution jumps to `g` at address 7. -/
theorem C9_call_padding_witness :
    alistGet c9state.functions "g" = some (⟨7, 3⟩ : FuncInfo) ∧
    c9state.stack.length < 3 ∧
    stepOp "CALL" [.strA "g"] c9state = .ok { c9state with
      call_stack := [⟨1, none, 0⟩], stack := [],
      locals_stack := [[vint 0, vint 0, vint 1]], fp := 0, pc := 7 } :=
  ⟨rfl, by decide, by
    have h := C9_call_padding c9state "g" ⟨7, 3⟩ rfl (by decide)
    exact h⟩

/-- `_mem_access` with an int address on top of the stack: the address is
popped and memory is extended by exactly the deficit `addr + size - len`
(zero-clamped, so nothing changes when the access already fits). -/
theorem memAccess_eq (size : Nat) (st : VMState) (opName : String)
    (addr : Int) (rest : List VMVal) (h : st.stack = vint addr :: rest) :
    memAccess size st opName = .ok (addr, { st with
      stack := rest,
      memory := st.memory ++
        List.replicate (addr + size - (st.memory.length : Int)).toNat 0 }) := by
  have hpop : popV st = .ok (vint addr, { st with stack := rest }) := by
    simp [popV, h]
  simp only [memAccess, hpop, bind, Except.bind, vint, PyNum.toIntOpt]
  simp only [reduceCtorEq, reduceIte, ne_eq, not_true_eq_false, if_false]
  split
  · rfl
  · next hng =>
    have h0 : (addr + size - ((st.memory.length : Int))).toNat = 0 := by
      simp at hng; omega
    rw [h0]
    simp

/-- Extending a memory by the zero-clamped deficit of an access at
`addr` of width `size` makes the access fit. -/
theorem memGrow_le (size : Nat) (mem : List Nat) (addr : Int) :
    addr + size ≤ ((mem ++ List.replicate
      (addr + size - (mem.length : Int)).toNat 0).length : Int) := by
  simp only [List.length_append, List.length_replicate]
  push_cast
  omega

/-- A Python slice assignment `mem[addr:addr+w] = bytes` with
`len(bytes) = w` and the range in bounds keeps the length of `mem`. -/
theorem pySliceSet_len (mem bytes : List Nat) (addr hi : Int) (w : Nat)
    (h0 : 0 ≤ addr) (hb : bytes.length = w) (hhi : hi = addr + w)
    (hle : addr + w ≤ (mem.length : Int)) :
    (pySliceSet mem addr hi bytes).length = mem.length := by
  subst hhi
  have hlo : pySliceIdx addr mem.length = addr.toNat := by
    simp only [pySliceIdx]; split <;> omega
  have hhi : pySliceIdx (addr + w) mem.length = addr.toNat + w := by
    simp only [pySliceIdx]; split <;> omega
  simp only [pySliceSet, hlo, hhi, List.length_append, List.length_take,
    List.length_drop, hb]
  omega

theorem vint_tag (n : Int) : (vint n).tag = "int" := rfl

theorem vint_val (n : Int) : (vint n).val = PyNum.pi n := rfl

theorem vfloat_tag (q : Rat) : (vfloat q).tag = "float" := rfl

theorem vfloat_val (q : Rat) : (vfloat q).val = PyNum.pf q := rfl

/-- A successful `mem[i] = v` assignment keeps the length of `mem`. -/
theorem pyIndexSet_length (mem : List Nat) (i : Int) (v : Nat)
    (out : List Nat) (h : pyIndexSet mem i v = some out) :
    out.length = mem.length := by
  simp only [pyIndexSet] at h
  split at h
  · split at h
    · cases h; simp
    · cases h
  · split at h
    · split at h
      · cases h; simp
      · cases h
    · cases h

/-- C8: `_mem_access` pops the int address and, when `addr + width`
exceeds the current memory length, appends exactly the deficit in zero
bytes; consequently every PEEK/POKE that completes leaves the memory at
least `addr + width` long (width 4 for the `I`/`F` forms, 1 for the `B`
forms), and `GROW` pops `n`, appends `n` zero bytes and pushes the new
total size. -/
theorem C8_memory_growth :
    (∀ (size : Nat) (st : VMState) (opName : String) (addr : Int)
        (rest : List VMVal), st.stack = vint addr :: rest →
        memAccess size st opName = .ok (addr, { st with
          stack := rest,
          memory := st.memory ++ List.replicate
            (addr + size - (st.memory.length : Int)).toNat 0 }) ∧
        addr + size ≤ ((st.memory ++ List.replicate
            (addr + size - (st.memory.length : Int)).toNat 0).length : Int)) ∧
    (∀ (st st' : VMState) (addr : Int) (rest : List VMVal),
        st.stack = vint addr :: rest → stepOp "PEEKI" [] st = .ok st' →
        addr + 4 ≤ (st'.memory.length : Int)) ∧
    (∀ (st st' : VMState) (addr : Int) (rest : List VMVal),
        st.stack = vint addr :: rest → stepOp "PEEKF" [] st = .ok st' →
        addr + 4 ≤ (st'.memory.length : Int)) ∧
    (∀ (st st' : VMState) (addr : Int) (rest : List VMVal),
        st.stack = vint addr :: rest → stepOp "PEEKB" [] st = .ok st' →
        addr + 1 ≤ (st'.memory.length : Int)) ∧
    (∀ (st st' : VMState) (value addr : Int) (rest : List VMVal),
        st.stack = vint value :: vint addr :: rest → 0 ≤ addr →
        stepOp "POKEI" [] st = .ok st' →
        addr + 4 ≤ (st'.memory.length : Int)) ∧
    (∀ (st st' : VMState) (q : Rat) (addr : Int) (rest : List VMVal),
        st.stack = vfloat q :: vint addr :: rest → 0 ≤ addr →
        stepOp "POKEF" [] st = .ok st' →
        addr + 4 ≤ (st'.memory.length : Int)) ∧
    (∀ (st st' : VMState) (value addr : Int) (rest : List VMVal),
        st.stack = vint value :: vint addr :: rest → 0 ≤ addr →
        stepOp "POKEB" [] st = .ok st' →
        addr + 1 ≤ (st'.memory.length : Int)) ∧
    (∀ (st : VMState) (n : Int) (rest : List VMVal),
        st.stack = vint n :: rest → 0 ≤ n →
        stepOp "GROW" [] st = .ok (pushV
          (vint ((st.memory ++ List.replicate n.toNat 0).length : Int))
          { st with
            stack := rest,
            memory := st.memory ++ List.replicate n.toNat 0 })) := by
  refine ⟨?_, ?_, ?_, ?_, ?_, ?_, ?_, ?_⟩
  · intro size st opName addr rest h
    exact ⟨memAccess_eq size st opName addr rest h, memGrow_le size st.memory addr⟩
  · intro st st' addr rest hstack hok
    have hm := memAccess_eq 4 st "PEEKI" addr rest hstack
    simp only [stepOp, reduceIte, String.reduceEq, hm, bind, Except.bind] at hok
    split at hok
    · cases hok
      simpa [pushV] using memGrow_le 4 st.memory addr
    · cases hok
  · intro st st' addr rest hstack hok
    have hm := memAccess_eq 4 st "PEEKF" addr rest hstack
    simp only [stepOp, reduceIte, String.reduceEq, hm, bind, Except.bind] at hok
    split at hok
    · cases hok
      simpa [pushV] using memGrow_le 4 st.memory addr
    · cases hok
  · intro st st' addr rest hstack hok
    have hm := memAccess_eq 1 st "PEEKB" addr rest hstack
    simp only [stepOp, reduceIte, String.reduceEq, hm, bind, Except.bind] at hok
    split at hok
    · cases hok
      simpa [pushV] using memGrow_le 1 st.memory addr
    · cases hok
  · intro st st' value addr rest hstack h0 hok
    have hm := memAccess_eq 4 { st with stack := vint addr :: rest } "POKEI"
      addr rest rfl
    simp only [stepOp, reduceIte, String.reduceEq, popV, hstack, vint_tag,
      vint_val, PyNum.toIntOpt, bind, Except.bind, reduceCtorEq, ne_eq,
      not_true_eq_false, if_false, hm] at hok
    split at hok
    · cases hok
    · next bytes hbytes =>
      cases hok
      have hblen : bytes.length = 4 := by
        simp only [packI32] at hbytes
        split at hbytes
        · cases hbytes
        · cases hbytes; rfl
      have hle := memGrow_le 4 st.memory addr
      have hset := pySliceSet_len
        (st.memory ++ List.replicate
          (addr + (4 : Nat) - (st.memory.length : Int)).toNat 0) bytes addr
        (addr + 4) 4 h0 hblen (by push_cast; ring) hle
      rw [hset]
      exact_mod_cast hle
  · intro st st' q addr rest hstack h0 hok
    have hm := memAccess_eq 4 { st with stack := vint addr :: rest } "POKEF"
      addr rest rfl
    simp only [stepOp, reduceIte, String.reduceEq, popV, hstack, vfloat_tag,
      vfloat_val, bind, Except.bind, reduceCtorEq, ne_eq, not_true_eq_false,
      if_false, hm] at hok
    cases hok
    have hle := memGrow_le 4 st.memory addr
    have hset := pySliceSet_len
      (st.memory ++ List.replicate
        (addr + (4 : Nat) - (st.memory.length : Int)).toNat 0)
      (encodeF32 (PyNum.toRat (.pf q))) addr (addr + 4) 4 h0 rfl
      (by push_cast; ring) hle
    rw [hset]
    exact_mod_cast hle
  · intro st st' value addr rest hstack h0 hok
    have hm := memAccess_eq 1 { st with stack := vint addr :: rest } "POKEB"
      addr rest rfl
    simp only [stepOp, reduceIte, String.reduceEq, popV, hstack, vint_tag,
      vint_val, PyNum.toIntOpt, bind, Except.bind, reduceCtorEq, ne_eq,
      not_true_eq_false, if_false, hm] at hok
    split at hok
    · cases hok
    · split at hok
      · next mem hmem =>
        cases hok
        have hle := memGrow_le 1 st.memory addr
        have hlen := pyIndexSet_length _ _ _ _ hmem
        simp only [hlen]
        exact hle
      · cases hok
  · intro st n rest hstack h0
    simp only [stepOp, reduceIte, String.reduceEq, popV, hstack, vint_tag,
      vint_val, PyNum.toIntOpt, bind, Except.bind, reduceCtorEq, ne_eq,
      not_true_eq_false, if_false, growMemory]
    rw [if_neg (by omega)]

/-- C8 witness: a `PEEKB` at address 3 on a two-byte memory grows it to
four bytes (the exact deficit) and the grown length covers the access. -/
theorem C8_memory_growth_witness :
    c8state.stack = vint 3 :: [] ∧
    stepOp "PEEKB" [] c8state = .ok c8result ∧
    (3 + 1 : Int) ≤ (c8result.memory.length : Int) :=
  ⟨rfl, rfl, C8_memory_growth.2.2.2.1 c8state c8result 3 [] rfl rfl⟩

/-- C10: `op_FTOI` on a float stack top pushes `int(value)`, Python
truncation toward zero (`29/10 ↦ 2` and `-29/10 ↦ -2`, while flooring
would give `-3`); on a non-float top it raises the FTOI type error. -/
theorem C10_ftoi_truncation :
    (∀ (st : VMState) (q : Rat) (rest : List VMVal),
        st.stack = vfloat q :: rest →
        stepOp "FTOI" [] st =
          .ok (pushV (vint (pyTruncRat q)) { st with stack := rest })) ∧
    pyTruncRat (mkRat 29 10) = 2 ∧
    pyTruncRat (mkRat (-29) 10) = -2 ∧
    (mkRat (-29) 10).floor = -3 ∧
    (∀ (st : VMState) (v : VMVal) (rest : List VMVal),
        st.stack = v :: rest → v.tag ≠ "float" →
        stepOp "FTOI" [] st = .error (.typeErr "FTOI")) := by
  refine ⟨?_, by decide, by decide, by decide, ?_⟩
  · intro st q rest hstack
    simp [stepOp, popV, hstack, vfloat_tag, vfloat_val, PyNum.toRat,
      bind, Except.bind]
  · intro st v rest hstack htag
    simp only [stepOp, reduceIte, String.reduceEq, popV, hstack, bind,
      Except.bind]
    rw [if_neg htag]

/-- C10 witness: `FTOI` on a stack holding the float `29/10` pushes the
int `2`. -/
theorem C10_ftoi_witness :
    ftoiDemo.stack = vfloat (mkRat 29 10) :: [] ∧
    stepOp "FTOI" [] ftoiDemo =
      .ok (pushV (vint (pyTruncRat (mkRat 29 10)))
        { ftoiDemo with stack := [] }) ∧
    pyTruncRat (mkRat 29 10) = 2 :=
  ⟨rfl, C10_ftoi_truncation.1 ftoiDemo (mkRat 29 10) [] rfl, rfl⟩

theorem frameGet_nil (s : String) : frameGet [] s = none := rfl

theorem frameGet_cons (p : String × Entity) (f : List (String × Entity))
    (s : String) :
    frameGet (p :: f) s = if p.1 = s then some p.2 else frameGet f s := by
  by_cases hp : p.1 = s <;> simp [frameGet, List.find?_cons, hp]

/-- Appending a binding for a different name does not change a lookup. -/
theorem frameGet_append_ne (f : List (String × Entity)) (k s : String)
    (ent : Entity) (h : k ≠ s) :
    frameGet (f ++ [(k, ent)]) s = frameGet f s := by
  induction f with
  | nil => simp [frameGet_cons, frameGet_nil, h]
  | cons p f ih =>
    by_cases hp : p.1 = s <;>
      simp [List.cons_append, frameGet_cons, hp, ih]

/-- Appending a binding for an absent name makes its lookup find it. -/
theorem frameGet_append_self (f : List (String × Entity)) (s : String)
    (ent : Entity) (h : frameGet f s = none) :
    frameGet (f ++ [(s, ent)]) s = some ent := by
  induction f with
  | nil => simp [frameGet_cons]
  | cons p f ih =>
    rw [frameGet_cons] at h
    by_cases hp : p.1 = s
    · rw [if_pos hp] at h; cases h
    · rw [if_neg hp] at h
      simpa [List.cons_append, frameGet_cons, hp] using ih h

/-- Rebinding a different name in place does not change a lookup. -/
theorem frameGet_map_ne (f : List (String × Entity)) (k s : String)
    (ent : Entity) (h : k ≠ s) :
    frameGet (f.map (fun p => if p.1 = k then (k, ent) else p)) s
      = frameGet f s := by
  induction f with
  | nil => rfl
  | cons p f ih =>
    by_cases hp : p.1 = k
    · have hps : ¬ p.1 = s := by rw [hp]; exact h
      simp [frameGet_cons, hp, hps, h, ih]
    · have hsk : ¬ s = k := fun hh => h hh.symm
      by_cases hps : p.1 = s <;> simp [frameGet_cons, hp, hps, hsk, ih]

/-- `Symtab.add` of a truthy entity preserves every truthy lookup
(either the looked-up name is untouched, or it gets shadowed by the new,
still truthy, entity). -/
theorem envAdd_truthy (env : Env) (k : String) (ent : Entity) (s : String)
    (hent : ent.truthy = true) (h : truthyGet env s = true) :
    truthyGet (envAdd env k ent) s = true := by
  cases env with
  | nil => exact h
  | cons f rest =>
    simp only [envAdd]
    split
    · exact h
    · next hnone =>
      cases hf : frameGet f s with
      | some e =>
        have hfind : frameGet (f ++ [(k, ent)]) s = some e := by
          by_cases hks : k = s
          · subst hks; simp [hf] at hnone
          · rw [frameGet_append_ne f k s ent hks, hf]
        simp only [truthyGet, envGet, hf] at h
        simp only [truthyGet, envGet, hfind]
        exact h
      | none =>
        by_cases hks : k = s
        · subst hks
          have hfind := frameGet_append_self f k ent hf
          simp only [truthyGet, envGet, hfind]
          exact hent
        · simp only [truthyGet, envGet, hf] at h
          simp only [truthyGet, envGet,
            frameGet_append_ne f k s ent hks, hf]
          exact h

/-- `Symtab.__setitem__` on a different name does not change a truthy
lookup. -/
theorem envSetItem_ne (env : Env) (k : String) (ent : Entity) (s : String)
    (h : k ≠ s) :
    truthyGet (envSetItem env k ent) s = truthyGet env s := by
  cases env with
  | nil => rfl
  | cons f rest =>
    simp only [envSetItem]
    split
    · simp only [truthyGet, envGet, frameGet_map_ne f k s ent h]
    · simp only [truthyGet, envGet, frameGet_append_ne f k s ent h]

/-- Adding all parameters as locals preserves a truthy lookup. -/
theorem foldl_envAdd_truthy (ps : List Param) (env : Env) (s : String)
    (h : truthyGet env s = true) :
    truthyGet (ps.foldl (fun e p => envAdd e p.name (.param p)) env) s
      = true := by
  induction ps generalizing env with
  | nil => exact h
  | cons p ps ih =>
    exact ih _ (envAdd_truthy env p.name (.param p) s rfl h)

theorem CResOk_of_expr {n1 : GNode} {t : Option String} {errs : List CErr}
    {res : CRes}
    (h : (.ok (.expr n1 t errs) : Except CCrash CRes) = .ok res)
    (herrs : ∀ nm rt, CErr.missingReturn nm rt ∉ errs) : CResOk res := by
  cases h
  exact ⟨herrs, fun env2 h2 => by simp [cresEnv] at h2⟩

theorem CResOk_of_zip {ns : List GNode} {errs : List CErr} {res : CRes}
    (h : (.ok (.zip ns errs) : Except CCrash CRes) = .ok res)
    (herrs : ∀ nm rt, CErr.missingReturn nm rt ∉ errs) : CResOk res := by
  cases h
  exact ⟨herrs, fun env2 h2 => by simp [cresEnv] at h2⟩

theorem CResOk_of_stmt {n1 : GNode} {env1 : Env} {errs : List CErr}
    {res : CRes} (henv : truthyGet env1 "$func" = true)
    (h : (.ok (.stmt n1 env1 errs) : Except CCrash CRes) = .ok res)
    (herrs : ∀ nm rt, CErr.missingReturn nm rt ∉ errs) : CResOk res := by
  cases h
  refine ⟨herrs, fun env2 h2 => ?_⟩
  simp only [cresEnv, Option.some.injEq] at h2
  exact h2 ▸ henv

theorem CResOk_of_stmts {ns : List GNode} {env1 : Env} {errs : List CErr}
    {res : CRes} (henv : truthyGet env1 "$func" = true)
    (h : (.ok (.stmts ns env1 errs) : Except CCrash CRes) = .ok res)
    (herrs : ∀ nm rt, CErr.missingReturn nm rt ∉ errs) : CResOk res := by
  cases h
  refine ⟨herrs, fun env2 h2 => ?_⟩
  simp only [cresEnv, Option.some.injEq] at h2
  exact h2 ▸ henv

theorem asCExpr_bind_ok {x : Except CCrash CRes} {β : Type}
    {f : GNode × Option String × List CErr → Except CCrash β} {res : β}
    (h : (do let r ← asCExpr x; f r) = .ok res) :
    ∃ n t errs, x = .ok (.expr n t errs) ∧ f (n, t, errs) = .ok res := by
  cases x with
  | error e => simp [asCExpr, bind, Except.bind] at h
  | ok r =>
    cases r with
    | expr n t errs => exact ⟨n, t, errs, rfl, h⟩
    | zip a b => simp [asCExpr, bind, Except.bind] at h
    | stmt a b c => simp [asCExpr, bind, Except.bind] at h
    | stmts a b c => simp [asCExpr, bind, Except.bind] at h

theorem asCZip_bind_ok {x : Except CCrash CRes} {β : Type}
    {f : List GNode × List CErr → Except CCrash β} {res : β}
    (h : (do let r ← asCZip x; f r) = .ok res) :
    ∃ ns errs, x = .ok (.zip ns errs) ∧ f (ns, errs) = .ok res := by
  cases x with
  | error e => simp [asCZip, bind, Except.bind] at h
  | ok r =>
    cases r with
    | zip ns errs => exact ⟨ns, errs, rfl, h⟩
    | expr a b c => simp [asCZip, bind, Except.bind] at h
    | stmt a b c => simp [asCZip, bind, Except.bind] at h
    | stmts a b c => simp [asCZip, bind, Except.bind] at h

theorem asCStmt_bind_ok {x : Except CCrash CRes} {β : Type}
    {f : GNode × Env × List CErr → Except CCrash β} {res : β}
    (h : (do let r ← asCStmt x; f r) = .ok res) :
    ∃ n env errs, x = .ok (.stmt n env errs) ∧ f (n, env, errs) = .ok res := by
  cases x with
  | error e => simp [asCStmt, bind, Except.bind] at h
  | ok r =>
    cases r with
    | stmt n env errs => exact ⟨n, env, errs, rfl, h⟩
    | expr a b c => simp [asCStmt, bind, Except.bind] at h
    | zip a b => simp [asCStmt, bind, Except.bind] at h
    | stmts a b c => simp [asCStmt, bind, Except.bind] at h

theorem asCStmts_bind_ok {x : Except CCrash CRes} {β : Type}
    {f : List GNode × Env × List CErr → Except CCrash β} {res : β}
    (h : (do let r ← asCStmts x; f r) = .ok res) :
    ∃ ns env errs, x = .ok (.stmts ns env errs) ∧
      f (ns, env, errs) = .ok res := by
  cases x with
  | error e => simp [asCStmts, bind, Except.bind] at h
  | ok r =>
    cases r with
    | stmts ns env errs => exact ⟨ns, env, errs, rfl, h⟩
    | expr a b c => simp [asCStmts, bind, Except.bind] at h
    | zip a b => simp [asCStmts, bind, Except.bind] at h
    | stmt a b c => simp [asCStmts, bind, Except.bind] at h

set_option linter.unusedTactic false in
/-- Inside a function body (`$func` truthy in the environment), no visit
of the checker ever emits a missing-return diagnostic, and every
statement visit keeps `$func` truthy in the environment it returns: the
`visit_FunctionDefinition` guard `self.symtab.get(sfunc)` diverts any
nested definition to the nested-function diagnostic before the
missing-return scan can run. -/
theorem checkRun_noMissing : ∀ (fuel : Nat) (req : CReq) (env : Env)
    (res : CRes), truthyGet env "$func" = true →
    checkRun fuel req env = .ok res → CResOk res := by
  intro fuel
  induction fuel with
  | zero => intro req env res hfunc h; cases h
  | succ fuel ih =>
    intro req env res hfunc h
    cases req with
    | expr n =>
      cases n with
      | Literal t v => exact CResOk_of_expr h (fun nm rt => by simp)
      | PrimitiveReadLocation name ty =>
        simp only [checkRun] at h
        split at h <;> exact CResOk_of_expr h (fun nm rt => by simp)
      | BinaryOperation l op r ty =>
        simp only [checkRun] at h
        obtain ⟨l1, lt1, e1, hl, h⟩ := asCExpr_bind_ok h
        have pl := ih _ env _ hfunc hl
        obtain ⟨r1, rt1, e2, hr, h⟩ := asCExpr_bind_ok h
        have pr := ih _ env _ hfunc hr
        dsimp only at h
        repeat' split at h
        all_goals try exact Except.noConfusion h
        all_goals {
          refine CResOk_of_expr h ?_
          intro nm rt
          have h1 := pl.1 nm rt
          have h2 := pr.1 nm rt
          simp only [cresErrs] at h1 h2 ⊢
          simp [List.mem_append, h1, h2] }
      | UnaryOperation op operand ty =>
        simp only [checkRun] at h
        obtain ⟨o1, ot, e1, ho, h⟩ := asCExpr_bind_ok h
        have po := ih _ env _ hfunc ho
        dsimp only at h
        repeat' split at h
        all_goals try exact Except.noConfusion h
        all_goals {
          refine CResOk_of_expr h ?_
          intro nm rt
          have h1 := po.1 nm rt
          simp only [cresErrs] at h1 ⊢
          simp [List.mem_append, h1] }
      | FunctionCall name args ty =>
        simp only [checkRun] at h
        split at h
        · exact CResOk_of_expr h (fun nm rt => by simp)
        · split at h
          · exact CResOk_of_expr h (fun nm rt => by simp)
          · split at h
            · exact ih _ env res hfunc h
            · exact ih _ env res hfunc h
            · exact Except.noConfusion h
      | TypeConversion target e ty =>
        simp only [checkRun] at h
        obtain ⟨e1, t1, errs, he, h⟩ := asCExpr_bind_ok h
        have pe := ih _ env _ hfunc he
        dsimp only at h
        refine CResOk_of_expr h ?_
        intro nm rt
        have h1 := pe.1 nm rt
        simp only [cresErrs] at h1 ⊢
        exact h1
      | MemoryReadLocation addr ty =>
        simp only [checkRun] at h
        obtain ⟨a1, at1, e1, ha, h⟩ := asCExpr_bind_ok h
        have pa := ih _ env _ hfunc ha
        dsimp only at h
        repeat' split at h
        all_goals try exact Except.noConfusion h
        all_goals {
          refine CResOk_of_expr h ?_
          intro nm rt
          have h1 := pa.1 nm rt
          simp only [cresErrs] at h1 ⊢
          simp [List.mem_append, h1] }
      | Program stmts => exact CResOk_of_expr h (fun nm rt => by simp)
      | Print e => exact CResOk_of_expr h (fun nm rt => by simp)
      | Conditional c tb fb => exact CResOk_of_expr h (fun nm rt => by simp)
      | WhileLoop c body => exact CResOk_of_expr h (fun nm rt => by simp)
      | Break => exact CResOk_of_expr h (fun nm rt => by simp)
      | Continue => exact CResOk_of_expr h (fun nm rt => by simp)
      | Return e => exact CResOk_of_expr h (fun nm rt => by simp)
      | VariableDeclaration a b c d =>
        exact CResOk_of_expr h (fun nm rt => by simp)
      | FunctionDefinition a b c d =>
        exact CResOk_of_expr h (fun nm rt => by simp)
      | FunctionImport a b c => exact CResOk_of_expr h (fun nm rt => by simp)
      | PrimitiveAssignmentLocation a b =>
        exact CResOk_of_expr h (fun nm rt => by simp)
      | MemoryAssignmentLocation a b c =>
        exact CResOk_of_expr h (fun nm rt => by simp)
    | callArgs name ps rt args =>
      simp only [checkRun] at h
      split at h
      · exact CResOk_of_expr h (fun nm rt2 => by simp)
      · obtain ⟨args1, errs, hz, h⟩ := asCZip_bind_ok h
        have pz := ih _ env _ hfunc hz
        dsimp only at h
        refine CResOk_of_expr h ?_
        intro nm rt2
        have h1 := pz.1 nm rt2
        simp only [cresErrs] at h1 ⊢
        exact h1
    | argsZip fname ps args =>
      cases ps with
      | nil =>
        cases args with
        | nil => exact CResOk_of_zip h (fun nm rt => by simp)
        | cons a args1 => exact CResOk_of_zip h (fun nm rt => by simp)
      | cons p ps1 =>
        cases args with
        | nil => exact CResOk_of_zip h (fun nm rt => by simp)
        | cons a args1 =>
          simp only [checkRun] at h
          obtain ⟨a1, at1, e1, ha, h⟩ := asCExpr_bind_ok h
          have pa := ih _ env _ hfunc ha
          dsimp only at h
          split at h
          · split at h
            · simp only [pure_bind] at h
              obtain ⟨rest, erest, hz, h⟩ := asCZip_bind_ok h
              have pz := ih _ env _ hfunc hz
              refine CResOk_of_zip h ?_
              intro nm rt
              have h1 := pa.1 nm rt
              have h2 := pz.1 nm rt
              simp only [cresErrs] at h1 h2 ⊢
              simp [List.mem_append, h1, h2]
            · simp only [bind, Except.bind] at h
              cases h
          · simp only [pure_bind] at h
            obtain ⟨rest, erest, hz, h⟩ := asCZip_bind_ok h
            have pz := ih _ env _ hfunc hz
            refine CResOk_of_zip h ?_
            intro nm rt
            have h1 := pa.1 nm rt
            have h2 := pz.1 nm rt
            simp only [cresErrs] at h1 h2 ⊢
            simp [List.mem_append, h1, h2]
    | stmt n =>
      cases n with
      | Program stmts =>
        simp only [checkRun] at h
        obtain ⟨stmts1, env1, errs, hs, h⟩ := asCStmts_bind_ok h
        have p1 := ih _ env _ hfunc hs
        have henv1 := p1.2 env1 rfl
        dsimp only at h
        refine CResOk_of_stmt henv1 h ?_
        intro nm rt
        have h1 := p1.1 nm rt
        simp only [cresErrs] at h1 ⊢
        exact h1
      | Print e =>
        simp only [checkRun] at h
        obtain ⟨e1, t1, errs, he, h⟩ := asCExpr_bind_ok h
        have pe := ih _ env _ hfunc he
        dsimp only at h
        refine CResOk_of_stmt hfunc h ?_
        intro nm rt
        have h1 := pe.1 nm rt
        simp only [cresErrs] at h1 ⊢
        exact h1
      | VariableDeclaration name vt val c =>
        cases val with
        | none =>
          simp only [checkRun] at h
          split at h
          · exact CResOk_of_stmt hfunc h (fun nm rt => by simp)
          · refine CResOk_of_stmt ?_ h (fun nm rt => by simp)
            exact envAdd_truthy env name _ "$func" rfl hfunc
        | some v =>
          simp only [checkRun] at h
          split at h
          · exact CResOk_of_stmt hfunc h (fun nm rt => by simp)
          · rw [bind_assoc] at h
            obtain ⟨v1, vt1, e1, hv, h⟩ := asCExpr_bind_ok h
            have pv := ih _ env _ hfunc hv
            dsimp only at h
            repeat' split at h
            all_goals try exact Except.noConfusion h
            all_goals {
              refine CResOk_of_stmt ?_ h ?_
              · exact envAdd_truthy env name _ "$func" rfl hfunc
              · intro nm rt
                have h1 := pv.1 nm rt
                simp only [cresErrs] at h1 ⊢
                simp [List.mem_append, h1] }
      | FunctionDefinition name params frt body =>
        simp only [checkRun, hfunc] at h
        split at h
        · exact CResOk_of_stmt hfunc h (fun nm rt => by simp)
        · exact CResOk_of_stmt hfunc h (fun nm rt => by simp)
      | FunctionImport name params frt =>
        simp only [checkRun] at h
        split at h
        · exact CResOk_of_stmt hfunc h (fun nm rt => by simp)
        · refine CResOk_of_stmt ?_ h (fun nm rt => by simp)
          exact envAdd_truthy env name _ "$func" rfl hfunc
      | PrimitiveAssignmentLocation name e =>
        simp only [checkRun] at h
        split at h
        · exact CResOk_of_stmt hfunc h (fun nm rt => by simp)
        · split at h
          · exact CResOk_of_stmt hfunc h (fun nm rt => by simp)
          · split at h
            · exact CResOk_of_stmt hfunc h (fun nm rt => by simp)
            · obtain ⟨e1, et, errs, he, h⟩ := asCExpr_bind_ok h
              have pe := ih _ env _ hfunc he
              dsimp only at h
              repeat' split at h
              all_goals try exact Except.noConfusion h
              all_goals {
                refine CResOk_of_stmt hfunc h ?_
                intro nm rt
                have h1 := pe.1 nm rt
                simp only [cresErrs] at h1 ⊢
                simp [List.mem_append, h1] }
      | Conditional cond tb fb =>
        cases fb with
        | none =>
          simp only [checkRun] at h
          obtain ⟨c1, ct, e1, hc, h⟩ := asCExpr_bind_ok h
          have pc := ih _ env _ hfunc hc
          obtain ⟨tb1, env1, e2, ht, h⟩ := asCStmts_bind_ok h
          have pt := ih _ env _ hfunc ht
          have henv1 := pt.2 env1 rfl
          dsimp only at h
          repeat' split at h
          all_goals try exact Except.noConfusion h
          all_goals {
            refine CResOk_of_stmt henv1 h ?_
            intro nm rt
            have h1 := pc.1 nm rt
            have h2 := pt.1 nm rt
            simp only [cresErrs] at h1 h2 ⊢
            simp [List.mem_append, h1, h2] }
        | some fbs =>
          simp only [checkRun] at h
          obtain ⟨c1, ct, e1, hc, h⟩ := asCExpr_bind_ok h
          have pc := ih _ env _ hfunc hc
          obtain ⟨tb1, env1, e2, ht, h⟩ := asCStmts_bind_ok h
          have pt := ih _ env _ hfunc ht
          have henv1 := pt.2 env1 rfl
          obtain ⟨fb1, env2, e3, hf, h⟩ := asCStmts_bind_ok h
          have pf := ih _ env1 _ henv1 hf
          have henv2 := pf.2 env2 rfl
          dsimp only at h
          repeat' split at h
          all_goals try exact Except.noConfusion h
          all_goals {
            refine CResOk_of_stmt henv2 h ?_
            intro nm rt
            have h1 := pc.1 nm rt
            have h2 := pt.1 nm rt
            have h3 := pf.1 nm rt
            simp only [cresErrs] at h1 h2 h3 ⊢
            simp [List.mem_append, h1, h2, h3] }
      | WhileLoop cond body =>
        simp only [checkRun] at h
        obtain ⟨c1, ct, e1, hc, h⟩ := asCExpr_bind_ok h
        have pc := ih _ env _ hfunc hc
        obtain ⟨body1, env2, e2, hb, h⟩ := asCStmts_bind_ok h
        have pb := ih _ _ _
          (envAdd_truthy env "$loop" (.flag true) "$func" rfl hfunc) hb
        have henv2 := pb.2 env2 rfl
        have henv3 : truthyGet (envSetItem env2 "$loop" (.flag false))
            "$func" = true := by
          rw [envSetItem_ne env2 "$loop" (.flag false) "$func" (by decide)]
          exact henv2
        dsimp only at h
        repeat' split at h
        all_goals try exact Except.noConfusion h
        all_goals {
          refine CResOk_of_stmt henv3 h ?_
          intro nm rt
          have h1 := pc.1 nm rt
          have h2 := pb.1 nm rt
          simp only [cresErrs] at h1 h2 ⊢
          simp [List.mem_append, h1, h2] }
      | Break =>
        simp only [checkRun] at h
        split at h <;> exact CResOk_of_stmt hfunc h (fun nm rt => by simp)
      | Continue =>
        simp only [checkRun] at h
        split at h <;> exact CResOk_of_stmt hfunc h (fun nm rt => by simp)
      | Return eOpt =>
        cases eOpt with
        | none =>
          simp only [checkRun, hfunc, eq_self_iff_true, not_true,
            if_false] at h
          cases h
        | some ex =>
          simp only [checkRun, hfunc, eq_self_iff_true, not_true,
            if_false] at h
          obtain ⟨ex1, rt1, e1, he, h⟩ := asCExpr_bind_ok h
          have pe := ih _ env _ hfunc he
          dsimp only at h
          repeat' split at h
          all_goals try exact Except.noConfusion h
          all_goals {
            refine CResOk_of_stmt hfunc h ?_
            intro nm rt
            have h1 := pe.1 nm rt
            simp only [cresErrs] at h1 ⊢
            simp [List.mem_append, h1] }
      | MemoryAssignmentLocation addr value ty =>
        simp only [checkRun] at h
        obtain ⟨a1, at1, e1, ha, h⟩ := asCExpr_bind_ok h
        have pa := ih _ env _ hfunc ha
        dsimp only at h
        split at h
        · refine CResOk_of_stmt hfunc h ?_
          intro nm rt
          have h1 := pa.1 nm rt
          simp only [cresErrs] at h1 ⊢
          simp [List.mem_append, h1]
        · obtain ⟨v1, vt1, e2, hv, h⟩ := asCExpr_bind_ok h
          have pv := ih _ env _ hfunc hv
          dsimp only at h
          refine CResOk_of_stmt hfunc h ?_
          intro nm rt
          have h1 := pa.1 nm rt
          have h2 := pv.1 nm rt
          simp only [cresErrs] at h1 h2 ⊢
          simp [List.mem_append, h1, h2]
      | Literal t v =>
        simp only [checkRun] at h
        obtain ⟨n1, t1, errs, he, h⟩ := asCExpr_bind_ok h
        have pe := ih _ env _ hfunc he
        dsimp only at h
        refine CResOk_of_stmt hfunc h ?_
        intro nm rt
        have h1 := pe.1 nm rt
        simp only [cresErrs] at h1 ⊢
        exact h1
      | BinaryOperation l op r ty =>
        simp only [checkRun] at h
        obtain ⟨n1, t1, errs, he, h⟩ := asCExpr_bind_ok h
        have pe := ih _ env _ hfunc he
        dsimp only at h
        refine CResOk_of_stmt hfunc h ?_
        intro nm rt
        have h1 := pe.1 nm rt
        simp only [cresErrs] at h1 ⊢
        exact h1
      | UnaryOperation op operand ty =>
        simp only [checkRun] at h
        obtain ⟨n1, t1, errs, he, h⟩ := asCExpr_bind_ok h
        have pe := ih _ env _ hfunc he
        dsimp only at h
        refine CResOk_of_stmt hfunc h ?_
        intro nm rt
        have h1 := pe.1 nm rt
        simp only [cresErrs] at h1 ⊢
        exact h1
      | TypeConversion target e ty =>
        simp only [checkRun] at h
        obtain ⟨n1, t1, errs, he, h⟩ := asCExpr_bind_ok h
        have pe := ih _ env _ hfunc he
        dsimp only at h
        refine CResOk_of_stmt hfunc h ?_
        intro nm rt
        have h1 := pe.1 nm rt
        simp only [cresErrs] at h1 ⊢
        exact h1
      | FunctionCall name args ty =>
        simp only [checkRun] at h
        obtain ⟨n1, t1, errs, he, h⟩ := asCExpr_bind_ok h
        have pe := ih _ env _ hfunc he
        dsimp only at h
        refine CResOk_of_stmt hfunc h ?_
        intro nm rt
        have h1 := pe.1 nm rt
        simp only [cresErrs] at h1 ⊢
        exact h1
      | PrimitiveReadLocation name ty =>
        simp only [checkRun] at h
        obtain ⟨n1, t1, errs, he, h⟩ := asCExpr_bind_ok h
        have pe := ih _ env _ hfunc he
        dsimp only at h
        refine CResOk_of_stmt hfunc h ?_
        intro nm rt
        have h1 := pe.1 nm rt
        simp only [cresErrs] at h1 ⊢
        exact h1
      | MemoryReadLocation addr ty =>
        simp only [checkRun] at h
        obtain ⟨n1, t1, errs, he, h⟩ := asCExpr_bind_ok h
        have pe := ih _ env _ hfunc he
        dsimp only at h
        refine CResOk_of_stmt hfunc h ?_
        intro nm rt
        have h1 := pe.1 nm rt
        simp only [cresErrs] at h1 ⊢
        exact h1
    | stmts ns =>
      cases ns with
      | nil => exact CResOk_of_stmts hfunc h (fun nm rt => by simp)
      | cons s rest =>
        simp only [checkRun] at h
        obtain ⟨s1, env1, e1, hs, h⟩ := asCStmt_bind_ok h
        have p1 := ih _ env _ hfunc hs
        have henv1 := p1.2 env1 rfl
        obtain ⟨rest1, env2, e2, hr, h⟩ := asCStmts_bind_ok h
        have p2 := ih _ env1 _ henv1 hr
        have henv2 := p2.2 env2 rfl
        dsimp only at h
        refine CResOk_of_stmts henv2 h ?_
        intro nm rt
        have h1 := p1.1 nm rt
        have h2 := p2.1 nm rt
        simp only [cresErrs] at h1 h2 ⊢
        simp [List.mem_append, h1, h2]

/-- C6 amended: for a function definition whose name is not yet bound and
that is not nested in another function, the checker reports
`missingReturn` exactly when the return type is not `VOID` and NO
top-level statement of the body is a `Return` node — the scan
`any(isinstance(stmt, Return) for stmt in node.body)` does not look
inside `if` or `while` bodies, and the body check itself can never
contribute a missing-return diagnostic. -/
theorem C6_missing_return_amended (fuel : Nat) (name : String)
    (params : List Param) (rt : String) (body : List GNode) (env : Env)
    (n1 : GNode) (env1 : Env) (errs : List CErr)
    (hname : truthyGet env name = false)
    (hfunc : truthyGet env "$func" = false)
    (h : checkStmt (fuel + 1) (.FunctionDefinition name params rt body) env
      = .ok (n1, env1, errs)) :
    CErr.missingReturn name rt ∈ errs ↔
      (rt ≠ "VOID" ∧ body.any isReturnNode = false) := by
  rw [checkStmt, asCStmt_ok_iff] at h
  simp only [checkRun, hname, hfunc, Bool.false_eq_true, if_false] at h
  obtain ⟨body1, env3, errsB, hb, h⟩ := asCStmts_bind_ok h
  have hloc : truthyGet (params.foldl (fun e p => envAdd e p.name (.param p))
      (envAdd ([] :: envAdd env name
          (.node (.FunctionDefinition name params rt body)))
        "$func" (.node (.FunctionDefinition name params rt body))))
      "$func" = true := by
    apply foldl_envAdd_truthy
    simp [envAdd, truthyGet, envGet, frameGet, List.find?, Entity.truthy]
  have pb := checkRun_noMissing fuel (.stmts body) _ _ hloc hb
  have hnb := pb.1 name rt
  simp only [cresErrs] at hnb
  cases h
  constructor
  · intro hmem
    rcases List.mem_append.mp hmem with hm | hm
    · exact absurd hm hnb
    · split at hm
      · next hcond =>
        simp only [Bool.and_eq_true, decide_eq_true_eq,
          Bool.not_eq_eq_eq_not, Bool.not_true, Bool.not_eq_true] at hcond
        exact hcond
      · simp at hm
  · intro hc
    refine List.mem_append.mpr (Or.inr ?_)
    split
    · simp
    · next hcond =>
      refine absurd ?_ hcond
      simp [hc.1, hc.2]

/-- C6 witness: the definition `func f() int {}` (empty body, non-void
return type) checked in a fresh global table yields exactly the
missing-return diagnostic, and the amended criterion agrees. -/
theorem C6_missing_return_witness :
    truthyGet [[]] "f" = false ∧
    truthyGet [[]] "$func" = false ∧
    checkStmt 2 (.FunctionDefinition "f" [] "int" []) [[]] =
      .ok (.FunctionDefinition "f" [] "int" [],
        [[("f", Entity.node (.FunctionDefinition "f" [] "int" []))]],
        [CErr.missingReturn "f" "int"]) ∧
    (CErr.missingReturn "f" "int" ∈ [CErr.missingReturn "f" "int"] ↔
      ("int" ≠ "VOID" ∧ ([] : List GNode).any isReturnNode = false)) := by
  refine ⟨rfl, rfl, rfl, ?_⟩
  exact C6_missing_return_amended 1 "f" [] "int" [] [[]]
    (.FunctionDefinition "f" [] "int" [])
    [[("f", Entity.node (.FunctionDefinition "f" [] "int" []))]]
    [CErr.missingReturn "f" "int"] rfl rfl rfl

end Gox
